import Mathlib

/-!
# V-ECS: queue arbitration and queue-family discovery

A shallow embedding of `src/jobs/JobManager.cpp` (worker count, overlap, lock pool,
`getQueueIndex`, `getQueueLock`) and of `src/engine/Device.cpp` (`findQueueFamilies`,
`querySwapChainSupport`, `checkDeviceExtensionSupport`, `rateDeviceSuitability`,
`pickPhysicalDevice`, `submitCommandBuffer`, the queue count of `createLogicalDevice`),
followed by the properties established about them.

Conventions.
* `uint32_t` values are natural numbers; a narrowing conversion or an unsigned
  subtraction that can wrap is written with an explicit `% 4294967296`.
* A `std::mutex*` is `Option Mutex`: `none` is `nullptr`.
* An integer division by zero (undefined behaviour in C++) makes the embedded
  function return `none`.
* A thrown exception or a fatal check is `Except.error`.
-/

namespace vecs

/-! ## Machine integers -/

/-- Number of values of a `uint32_t`, `2^32`. -/
def UINT32_SIZE : Nat := 4294967296

/-- Conversion of an integer value to `uint32_t` (reduction modulo `2^32`). -/
def toUint32 (n : Nat) : Nat := n % UINT32_SIZE

/-- Subtraction `a - b` of two `unsigned int` values, which wraps modulo `2^32`. -/
def subUint32 (a b : Nat) : Nat := (a % UINT32_SIZE + UINT32_SIZE - b % UINT32_SIZE) % UINT32_SIZE

/-! ## JobManager -/

/-- A mutex object made by `new std::mutex()` in `JobManager::init` (line 52). Every
evaluation of `new` yields a fresh object; `slot` is the loop counter `i` of the
allocation, so two mutexes are the same object exactly when their slots agree. -/
structure Mutex where
  slot : Nat
  deriving DecidableEq, Repr

/-- The binding a worker receives from `Worker::init(queueIndex, queueLock)` (line 57):
its queue index and its `std::mutex*` (`none` for `nullptr`). -/
structure Worker where
  queueIndex : Nat
  queueLock : Option Mutex
  deriving DecidableEq, Repr

/-- The members of `JobManager` that `JobManager.cpp` reads and writes, together with
`engine->device->queueFamilyIndices.graphicsQueueCount`, which it only reads. The
declarations are in JobManager.h, which is not among the sources; `overlap` holds the value
computed at line 45 as it is, a number between 0 and `numThreads + 3`. -/
structure JobManager where
  graphicsQueueCount : Nat
  overlap : Nat
  queueLocks : List Mutex
  workerThreads : List Worker
  deriving DecidableEq, Repr

/-- Line 27: `std::max(1u, std::thread::hardware_concurrency() - 1)`. The subtraction is
carried out on `unsigned int`. -/
def numThreads (hardwareConcurrency : Nat) : Nat :=
  max 1 (subUint32 hardwareConcurrency 1)

/-- Lines 62-70, `JobManager::getQueueIndex`. The two `%` operations have undefined
behaviour for a zero divisor; that outcome is `none`. In the second branch
`graphicsQueueCount > overlap >= 1`, so `graphicsQueueCount - 1` does not wrap, and the
result is at most `graphicsQueueCount - 1`, so the `+ 1` does not wrap either. -/
def JobManager.getQueueIndex (jm : JobManager) (desiredIndex : Nat) : Option Nat :=
  if jm.overlap = 0 then some desiredIndex
  else if jm.overlap < jm.graphicsQueueCount then
    if jm.graphicsQueueCount - 1 = 0 then none
    else some (desiredIndex % (jm.graphicsQueueCount - 1) + 1)
  else if jm.graphicsQueueCount = 0 then none
  else some (desiredIndex % jm.graphicsQueueCount)

/-- Lines 81-82 of `JobManager::getQueueLock`: the bounds-checked lookup in `queueLocks`. -/
def JobManager.lockInPool (jm : JobManager) (queueIndex : Nat) : Option Mutex :=
  if queueIndex < jm.queueLocks.length then jm.queueLocks[queueIndex]? else none

/-- Lines 72-83, `JobManager::getQueueLock`. -/
def JobManager.getQueueLock (jm : JobManager) (queueIndex : Nat) : Option Mutex :=
  if jm.overlap < jm.graphicsQueueCount then
    if queueIndex = 0 then none
    else jm.lockInPool (queueIndex - 1)
  else jm.lockInPool queueIndex

/-- Lines 41-53 of `JobManager::init`: the overlap and the lock pool, for `numThreads`
workers and `availableQueues` graphics queues. No worker is bound yet. -/
def JobManager.initQueues (availableQueues numThreads : Nat) : JobManager :=
  let desiredQueues := numThreads + 3
  let overlap := if availableQueues > desiredQueues then 0 else desiredQueues - availableQueues
  let queueLocks :=
    if overlap ≠ 0 then (List.range (min availableQueues overlap)).map Mutex.mk else []
  { graphicsQueueCount := availableQueues
    overlap := overlap
    queueLocks := queueLocks
    workerThreads := [] }

/-- Lines 56-57 of `JobManager::init`: the binding of worker `i`. The argument `i + 3`
is a `size_t` narrowed to the `uint32_t` parameter of `getQueueIndex`. -/
def JobManager.bindWorker (jm : JobManager) (i : Nat) : Option Worker :=
  match jm.getQueueIndex (toUint32 (i + 3)) with
  | none => none
  | some queueIndex => some { queueIndex := queueIndex, queueLock := jm.getQueueLock queueIndex }

/-- Lines 55-59 of `JobManager::init`: the loop `for (i = 0; i < numThreads; i++)`,
by recursion on the number of iterations done; iteration `n` binds worker `n`. -/
def JobManager.bindWorkers (jm : JobManager) : Nat → Option (List Worker)
  | 0 => some []
  | n + 1 =>
    match jm.bindWorkers n with
    | none => none
    | some workers =>
      match jm.bindWorker n with
      | none => none
      | some worker => some (workers ++ [worker])

/-- Lines 41-59 of `JobManager::init` for a given worker count: plan the queues, then
bind the workers `0 .. numThreads - 1` in order. -/
def JobManager.initWorkers (availableQueues numThreads : Nat) : Option JobManager :=
  let jm := JobManager.initQueues availableQueues numThreads
  match jm.bindWorkers numThreads with
  | none => none
  | some workers => some { jm with workerThreads := workers }

/-- Lines 26-60, `JobManager::init`, as a function of the two values it reads from its
environment: the hardware concurrency and the graphics queue count of the device. -/
def JobManager.init (hardwareConcurrency availableQueues : Nat) : Option JobManager :=
  JobManager.initWorkers availableQueues (numThreads hardwareConcurrency)

/-! ## Device: queue-family discovery -/

/-- The Vulkan flag bit `VK_QUEUE_GRAPHICS_BIT`, `0x00000001`. -/
def VK_QUEUE_GRAPHICS_BIT : Nat := 1

/-- The fields of the Vulkan record `VkQueueFamilyProperties` that `findQueueFamilies`
reads. -/
structure VkQueueFamilyProperties where
  queueFlags : Nat
  queueCount : Nat
  deriving DecidableEq, Repr

/-- The record `QueueFamilyIndices` as `Device.cpp` uses it: two `std::optional<uint32_t>`
family indices and the queue count of the graphics family. -/
structure QueueFamilyIndices where
  graphics : Option Nat
  graphicsQueueCount : Nat
  present : Option Nat
  deriving DecidableEq, Repr

/-- Modelled from the spec: the declaration of `QueueFamilyIndices` (Device.h) is not among
the sources, so the default-constructed value of line 244 is taken from the data model of
the spec: both optional indices unpopulated and a `graphicsQueueCount` of 0. -/
def QueueFamilyIndices.unset : QueueFamilyIndices :=
  { graphics := none, graphicsQueueCount := 0, present := none }

/-- The test `queueFamily.queueFlags & VK_QUEUE_GRAPHICS_BIT` of line 259. -/
def supportsGraphics (queueFamily : VkQueueFamilyProperties) : Prop :=
  queueFamily.queueFlags &&& VK_QUEUE_GRAPHICS_BIT ≠ 0

instance supportsGraphics.decidable (queueFamily : VkQueueFamilyProperties) :
    Decidable (supportsGraphics queueFamily) := by
  unfold supportsGraphics
  infer_instance

/-- Lines 256-271: one iteration of the loop of `findQueueFamilies`, for the family
`queueFamily` at index `i`. `presentSupport i` is the value the query
`vkGetPhysicalDeviceSurfaceSupportKHR(device, i, surface, &presentSupport)` leaves in
`presentSupport`. -/
def findQueueFamiliesStep (presentSupport : Nat → Bool) (indices : QueueFamilyIndices)
    (i : Nat) (queueFamily : VkQueueFamilyProperties) : QueueFamilyIndices :=
  let indices :=
    if supportsGraphics queueFamily ∧ queueFamily.queueCount > indices.graphicsQueueCount then
      { indices with graphics := some i, graphicsQueueCount := queueFamily.queueCount }
    else indices
  if presentSupport i then { indices with present := some i } else indices

/-- Lines 254-272: the loop of `findQueueFamilies` over the families still to visit, with
the counter `i` and the indices recorded so far. -/
def findQueueFamiliesLoop (presentSupport : Nat → Bool) :
    List VkQueueFamilyProperties → Nat → QueueFamilyIndices → QueueFamilyIndices
  | [], _, indices => indices
  | queueFamily :: rest, i, indices =>
    findQueueFamiliesLoop presentSupport rest (i + 1)
      (findQueueFamiliesStep presentSupport indices i queueFamily)

/-- Lines 243-275, `Device::findQueueFamilies`, as a function of what it reads from the
device: the list of queue families and, per family index, the surface support. -/
def Device.findQueueFamilies (queueFamilies : List VkQueueFamilyProperties)
    (presentSupport : Nat → Bool) : QueueFamilyIndices :=
  findQueueFamiliesLoop presentSupport queueFamilies 0 QueueFamilyIndices.unset

/-! ## Device: rating and selection of physical devices -/

/-- Conversion of an unsigned 32-bit value to `int` (two's complement, 32 bits). -/
def toInt32 (n : Nat) : Int :=
  if n % UINT32_SIZE < 2147483648 then ((n % UINT32_SIZE : Nat) : Int)
  else ((n % UINT32_SIZE : Nat) : Int) - 4294967296

/-- The compound assignment `score += x` for an `int score` and a `uint32_t x`: both
operands are converted to `unsigned int`, added modulo `2^32`, and the sum is converted back
to `int`. -/
def addAssignUint32 (score : Int) (x : Nat) : Int :=
  toInt32 ((score % 4294967296).toNat + x % UINT32_SIZE)

/-- The Vulkan enumerator `VK_PHYSICAL_DEVICE_TYPE_DISCRETE_GPU`, 2. -/
def VK_PHYSICAL_DEVICE_TYPE_DISCRETE_GPU : Nat := 2

/-- A physical device handle, held as the values the Vulkan queries of `Device.cpp` return
for it (and for the surface):
`queueFamilies` from `vkGetPhysicalDeviceQueueFamilyProperties`,
`presentSupport i` from `vkGetPhysicalDeviceSurfaceSupportKHR` for family `i`,
`surfaceCapabilities`, `surfaceFormats`, `surfacePresentModes` from the three surface queries,
`availableExtensions` the extension names from `vkEnumerateDeviceExtensionProperties`,
`deviceType` and `maxImageDimension2D` from `vkGetPhysicalDeviceProperties`,
`samplerAnisotropy` from `vkGetPhysicalDeviceFeatures`. -/
structure VkPhysicalDevice where
  queueFamilies : List VkQueueFamilyProperties
  presentSupport : Nat → Bool
  surfaceCapabilities : Nat
  surfaceFormats : List Nat
  surfacePresentModes : List Nat
  availableExtensions : List String
  deviceType : Nat
  maxImageDimension2D : Nat
  samplerAnisotropy : Bool

/-- The record `SwapChainSupportDetails` as `Device.cpp` fills it. -/
structure SwapChainSupportDetails where
  capabilities : Nat
  formats : List Nat
  presentModes : List Nat
  deriving DecidableEq, Repr

/-- The record `PhysicalDeviceCandidate` as `Device.cpp` fills it (lines 193-196). -/
structure PhysicalDeviceCandidate where
  physicalDevice : VkPhysicalDevice
  indices : QueueFamilyIndices
  swapChainSupport : SwapChainSupportDetails

/-- The members of `Device` that `pickPhysicalDevice` sets (lines 206-208). -/
structure Device where
  physical : VkPhysicalDevice
  queueFamilyIndices : QueueFamilyIndices
  swapChainSupport : SwapChainSupportDetails

/-- Modelled from the spec: `QueueFamilyIndices::isComplete` (Device.h) is not among the
sources. The data model of the spec calls a layout complete when both optional indices are
populated, and the comment at lines 314-315 says it checks that each needed feature exists at
some index. -/
def QueueFamilyIndices.isComplete (indices : QueueFamilyIndices) : Bool :=
  indices.graphics.isSome && indices.present.isSome

/-- Lines 277-302, `Device::querySwapChainSupport`: the capabilities, and each of the two
lists only when its reported count is not zero. -/
def Device.querySwapChainSupport (physicalDevice : VkPhysicalDevice) : SwapChainSupportDetails :=
  { capabilities := physicalDevice.surfaceCapabilities
    formats :=
      if physicalDevice.surfaceFormats.length ≠ 0 then physicalDevice.surfaceFormats else []
    presentModes :=
      if physicalDevice.surfacePresentModes.length ≠ 0 then physicalDevice.surfacePresentModes
      else [] }

/-- Lines 350-370, `Device::checkDeviceExtensionSupport`. The array `deviceExtensions`
(declared outside the sources) is a parameter. The `std::set` of required names is a
duplicate-free list; every available name is erased from it; the result is whether it is
empty at the end. -/
def Device.checkDeviceExtensionSupport (deviceExtensions : List String)
    (device : VkPhysicalDevice) : Bool :=
  let requiredExtensions := deviceExtensions.dedup
  let requiredExtensions :=
    device.availableExtensions.foldl (fun required extensionName => required.erase extensionName)
      requiredExtensions
  requiredExtensions.isEmpty

/-- Lines 304-348, `Device::rateDeviceSuitability`; `score` is an `int`. -/
def Device.rateDeviceSuitability (deviceExtensions : List String)
    (candidate : PhysicalDeviceCandidate) : Int :=
  let device := candidate.physicalDevice
  let indices := candidate.indices
  let swapChainSupport := candidate.swapChainSupport
  if !indices.isComplete then 0
  else if !Device.checkDeviceExtensionSupport deviceExtensions device then 0
  else if swapChainSupport.formats.isEmpty || swapChainSupport.presentModes.isEmpty then 0
  else if !device.samplerAnisotropy then 0
  else
    let score : Int := 0
    let score :=
      if device.deviceType = VK_PHYSICAL_DEVICE_TYPE_DISCRETE_GPU then score + 1000 else score
    addAssignUint32 score device.maxImageDimension2D

/-- Lines 193-196 of `pickPhysicalDevice`: the candidate built for one enumerated device. -/
def Device.makeCandidate (device : VkPhysicalDevice) : PhysicalDeviceCandidate :=
  { physicalDevice := device
    indices := Device.findQueueFamilies device.queueFamilies device.presentSupport
    swapChainSupport := Device.querySwapChainSupport device }

/-- The operation `std::multimap<int, T>::insert`: the container is kept ordered by key, and
an entry whose key is already present goes after the entries with that key. -/
def multimapInsert {α : Type} (entry : Int × α) : List (Int × α) → List (Int × α)
  | [] => [entry]
  | first :: rest =>
    if entry.1 < first.1 then entry :: first :: rest
    else first :: multimapInsert entry rest

/-- Lines 191-199 of `pickPhysicalDevice`: the multimap of scored candidates after the loop
over the enumerated devices. -/
def Device.rateCandidates (deviceExtensions : List String) (devices : List VkPhysicalDevice) :
    List (Int × PhysicalDeviceCandidate) :=
  devices.foldl
    (fun candidates device =>
      multimapInsert
        (Device.rateDeviceSuitability deviceExtensions (Device.makeCandidate device),
          Device.makeCandidate device)
        candidates)
    []

/-- Lines 176-241, `Device::pickPhysicalDevice`, as a function of the enumerated devices;
a thrown `std::runtime_error` is `Except.error` with its message. `candidates.rbegin()` is the
last entry of the multimap; it exists because the map has one entry per enumerated device and
`deviceCount` is not 0 at that point. The debug log written on success is left out. -/
def Device.pickPhysicalDevice (deviceExtensions : List String)
    (devices : List VkPhysicalDevice) : Except String Device :=
  if devices.length = 0 then Except.error "failed to find GPUs with Vulkan support!"
  else
    match (Device.rateCandidates deviceExtensions devices).getLast? with
    | none => Except.error "rbegin() of an empty multimap"
    | some best =>
      if best.1 > 0 then
        Except.ok
          { physical := best.2.physicalDevice
            queueFamilyIndices := best.2.indices
            swapChainSupport := best.2.swapChainSupport }
      else Except.error "failed to find a suitable GPU!"

/-! ## Device: command-buffer submission and queue creation -/

/-- The Vulkan result code `VK_SUCCESS`, 0. -/
def VK_SUCCESS : Int := 0

/-- The Vulkan result code `VK_ERROR_DEVICE_LOST`, -4. -/
def VK_ERROR_DEVICE_LOST : Int := -4

/-- The calls `submitCommandBuffer` makes, with the result code a hardware call returned. -/
inductive SubmitEvent where
  | endCommandBuffer (result : Int)
  | lock (queueLock : Mutex)
  | queueSubmit (result : Int)
  | queueWaitIdle (result : Int)
  | unlock (queueLock : Mutex)
  | freeCommandBuffers
  deriving DecidableEq, Repr

/-- Modelled from the spec: the macro `VK_CHECK_RESULT` is defined outside the sources. By
the error handling design of the spec a failure reported by a checked call is fatal and is
surfaced to the caller; the outcome is `Except.error` with the result code, and `Except.ok`
for `VK_SUCCESS`. -/
def VK_CHECK_RESULT (result : Int) : Except Int Unit :=
  if result = VK_SUCCESS then Except.ok () else Except.error result

/-- Lines 129-149, `Device::submitCommandBuffer`, as a function of the result codes the three
hardware calls return, the worker and the flag `free`. The value is the sequence of calls
made, in order, and whether the function returns normally (`Except.ok`) or fails. Only the
result of `vkEndCommandBuffer` goes through `VK_CHECK_RESULT`; the results of `vkQueueSubmit`
and `vkQueueWaitIdle` are discarded. -/
def Device.submitCommandBuffer (endResult submitResult waitIdleResult : Int) (worker : Worker)
    (free : Bool) : List SubmitEvent × Except Int Unit :=
  match VK_CHECK_RESULT endResult with
  | Except.error e => ([SubmitEvent.endCommandBuffer endResult], Except.error e)
  | Except.ok _ =>
    let calls := [SubmitEvent.endCommandBuffer endResult]
    let calls :=
      match worker.queueLock with
      | some queueLock => calls ++ [SubmitEvent.lock queueLock]
      | none => calls
    let calls := calls ++ [SubmitEvent.queueSubmit submitResult]
    let calls := calls ++ [SubmitEvent.queueWaitIdle waitIdleResult]
    let calls :=
      match worker.queueLock with
      | some queueLock => calls ++ [SubmitEvent.unlock queueLock]
      | none => calls
    let calls := if free then calls ++ [SubmitEvent.freeCommandBuffers] else calls
    (calls, Except.ok ())

/-- Lines 384-386 of `Device::createLogicalDevice`: the number of entries pushed on
`queuePriorities`, which line 405 requests as the graphics queue count. `desiredQueues` is a
`uint32_t`; the loop counter is the `int` value of `min(desiredQueues, graphicsQueueCount) - 1`
and the loop runs while it is not negative. -/
def Device.graphicsQueuesRequested (hardwareConcurrency graphicsQueueCount : Nat) : Nat :=
  let desiredQueues := toUint32 (max 1 (subUint32 hardwareConcurrency 1) + 3)
  let start := toInt32 (subUint32 (min desiredQueues graphicsQueueCount) 1)
  (start + 1).toNat

/-! ## Loop invariants of `findQueueFamilies` -/

/-- The loop invariant for the graphics family: the recorded count bounds the count of every
visited graphics-capable family; with no graphics index the count is 0; a recorded graphics
index names a visited graphics-capable family with exactly that count, at least 1, and every
earlier graphics-capable family has a smaller count. -/
def GraphicsInv (visited : List VkQueueFamilyProperties) (indices : QueueFamilyIndices) : Prop :=
  (∀ (i : Nat) (queueFamily : VkQueueFamilyProperties), visited[i]? = some queueFamily → supportsGraphics queueFamily →
      queueFamily.queueCount ≤ indices.graphicsQueueCount)
    ∧ (indices.graphics = none → indices.graphicsQueueCount = 0)
    ∧ (∀ g : Nat, indices.graphics = some g →
        1 ≤ indices.graphicsQueueCount
          ∧ ∃ queueFamily, visited[g]? = some queueFamily ∧ supportsGraphics queueFamily
              ∧ queueFamily.queueCount = indices.graphicsQueueCount
              ∧ ∀ (j : Nat) (earlier : VkQueueFamilyProperties), j < g → visited[j]? = some earlier → supportsGraphics earlier →
                  earlier.queueCount < indices.graphicsQueueCount)

/-- The loop invariant for the present family: with no present index no visited family
supports presentation; a recorded present index names the last visited family that supports
presentation. -/
def PresentInv (presentSupport : Nat → Bool) (visited : List VkQueueFamilyProperties)
    (indices : QueueFamilyIndices) : Prop :=
  (indices.present = none → ∀ j : Nat, j < visited.length → presentSupport j = false)
    ∧ (∀ p : Nat, indices.present = some p →
        p < visited.length ∧ presentSupport p = true
          ∧ ∀ j : Nat, p < j → j < visited.length → presentSupport j = false)

end vecs

namespace vecs

/-! ## JobManager: general facts -/

theorem initQueues_graphicsQueueCount (availableQueues workerCount : Nat) :
    (JobManager.initQueues availableQueues workerCount).graphicsQueueCount = availableQueues := rfl

theorem initQueues_overlap (availableQueues workerCount : Nat) :
    (JobManager.initQueues availableQueues workerCount).overlap
      = workerCount + 3 - availableQueues := by
  simp only [JobManager.initQueues]
  split_ifs with h <;> omega

theorem initQueues_queueLocks (availableQueues workerCount : Nat) :
    (JobManager.initQueues availableQueues workerCount).queueLocks
      = (List.range (min availableQueues (workerCount + 3 - availableQueues))).map Mutex.mk := by
  have h := initQueues_overlap availableQueues workerCount
  simp only [JobManager.initQueues] at h ⊢
  rw [h]
  split_ifs with h0
  · rfl
  · have : workerCount + 3 - availableQueues = 0 := by simpa using h0
    simp [this]

theorem lockInPool_initQueues (availableQueues workerCount q : Nat) :
    (JobManager.initQueues availableQueues workerCount).lockInPool q
      = if q < min availableQueues (workerCount + 3 - availableQueues) then some ⟨q⟩ else none := by
  simp only [JobManager.lockInPool, initQueues_queueLocks, List.length_map, List.length_range]
  split_ifs with h
  · simp [List.getElem?_map, List.getElem?_range h]
  · rfl

theorem getQueueIndex_isSome (jm : JobManager) (h : 1 ≤ jm.graphicsQueueCount) (x : Nat) :
    ∃ q, jm.getQueueIndex x = some q := by
  unfold JobManager.getQueueIndex
  split_ifs with h0 h1 h2 h3
  · exact ⟨_, rfl⟩
  · omega
  · exact ⟨_, rfl⟩
  · omega
  · exact ⟨_, rfl⟩

theorem bindWorkers_total (jm : JobManager) (h : 1 ≤ jm.graphicsQueueCount) (n : Nat) :
    ∃ workers, jm.bindWorkers n = some workers ∧ workers.length = n := by
  induction n with
  | zero => exact ⟨[], rfl, rfl⟩
  | succ n ih =>
    obtain ⟨workers, hw, hlen⟩ := ih
    obtain ⟨q, hq⟩ := getQueueIndex_isSome jm h (toUint32 (n + 3))
    refine ⟨workers ++ [⟨q, jm.getQueueLock q⟩], ?_, by simp [hlen]⟩
    simp [JobManager.bindWorkers, hw, JobManager.bindWorker, hq]

/-- For at least one graphics queue, lines 41-59 of `init` return: the planned state with one
bound worker per thread. -/
theorem initWorkers_total (availableQueues workerCount : Nat) (hA : 1 ≤ availableQueues) :
    ∃ workers, JobManager.initWorkers availableQueues workerCount
        = some { JobManager.initQueues availableQueues workerCount with
            workerThreads := workers }
      ∧ workers.length = workerCount := by
  obtain ⟨workers, hw, hlen⟩ :=
    bindWorkers_total (JobManager.initQueues availableQueues workerCount) hA workerCount
  exact ⟨workers, by simp [JobManager.initWorkers, hw], hlen⟩

/-! ## JobManager: the claims -/

/-- C1, evaluated on the code: with `availableQueues = 5` and `workerCount = 5`
(hardware concurrency 6; `overlap = 3`, three locks), `JobManager::init` binds worker 0 (ordinal 3) and worker 4
(ordinal 7) to the same queue index 4, and `getQueueLock(4)` is `nullptr`: two workers
share a queue and neither holds a lock. -/
theorem C1_colliding_workers_without_lock :
    numThreads 6 = 5
      ∧ (JobManager.init 6 5).map (fun jm => (jm.overlap, jm.queueLocks, jm.workerThreads))
        = some (3, [⟨0⟩, ⟨1⟩, ⟨2⟩],
            [⟨4, none⟩, ⟨1, some ⟨0⟩⟩, ⟨2, some ⟨1⟩⟩, ⟨3, some ⟨2⟩⟩, ⟨4, none⟩])
      ∧ (JobManager.initQueues 5 5).getQueueIndex (0 + 3) = some 4
      ∧ (JobManager.initQueues 5 5).getQueueIndex (4 + 3) = some 4
      ∧ (JobManager.initQueues 5 5).getQueueLock 4 = none := by
  decide

/-- The defect behind C1 on a common configuration: 16 graphics queues and a hardware
concurrency of 24 (23 workers, `overlap = 10`, ten locks). Workers 7 and 22 (ordinals 10 and
25) are both bound to queue 11 with a null lock. -/
theorem colliding_workers_sixteen_queues :
    numThreads 24 = 23
      ∧ (JobManager.initQueues 16 23).overlap = 10
      ∧ (JobManager.initQueues 16 23).queueLocks.length = 10
      ∧ (JobManager.initQueues 16 23).bindWorker 7 = some ⟨11, none⟩
      ∧ (JobManager.initQueues 16 23).bindWorker 22 = some ⟨11, none⟩ := by
  decide

/-- C2, evaluated on the code: with `availableQueues = 3` and `workerCount = 1`
(`desiredQueues = 4`, `overlap = 1`, one lock), the ordinals 1 and 3 are both below
`desiredQueues`, both get queue index 2, and `getQueueLock(2)` is `nullptr`: a queue index
without a lock has a second claimant. -/
theorem C2_no_lock_yet_second_claimant :
    (JobManager.initQueues 3 1).overlap = 1
      ∧ (JobManager.initQueues 3 1).queueLocks = [⟨0⟩]
      ∧ 3 < 1 + 3 ∧ 1 < 1 + 3 ∧ (1 : Nat) ≠ 3
      ∧ (JobManager.initQueues 3 1).getQueueIndex 3 = some 2
      ∧ (JobManager.initQueues 3 1).getQueueLock 2 = none
      ∧ (JobManager.initQueues 3 1).getQueueIndex 1 = some 2 := by
  decide

/-- C3: for `availableQueues >= 1`, `JobManager::init` returns, its overlap is
`max(0, workerCount + 3 - availableQueues)` over the integers, its lock pool holds exactly
`min(availableQueues, overlap)` pairwise distinct locks, and the pool is empty iff the
overlap is 0. -/
theorem C3_overlap_and_lock_pool_size (availableQueues workerCount : Nat)
    (hA : 1 ≤ availableQueues) :
    ∃ jm, JobManager.initWorkers availableQueues workerCount = some jm
      ∧ (jm.overlap : Int) = max 0 ((workerCount : Int) + 3 - (availableQueues : Int))
      ∧ jm.queueLocks.length = min availableQueues jm.overlap
      ∧ jm.queueLocks.Nodup
      ∧ (jm.queueLocks = [] ↔ jm.overlap = 0) := by
  obtain ⟨workers, hw, -⟩ :=
    bindWorkers_total (JobManager.initQueues availableQueues workerCount) hA workerCount
  refine ⟨{ JobManager.initQueues availableQueues workerCount with workerThreads := workers },
    by simp [JobManager.initWorkers, hw], ?_, ?_, ?_, ?_⟩
  · show (((JobManager.initQueues availableQueues workerCount).overlap : Nat) : Int) = _
    rw [initQueues_overlap]
    omega
  · show (JobManager.initQueues availableQueues workerCount).queueLocks.length
        = min availableQueues (JobManager.initQueues availableQueues workerCount).overlap
    rw [initQueues_queueLocks, initQueues_overlap]
    simp
  · show (JobManager.initQueues availableQueues workerCount).queueLocks.Nodup
    rw [initQueues_queueLocks]
    refine List.Nodup.map ?_ (List.nodup_range _)
    intro a b hab
    exact congrArg Mutex.slot hab
  · show (JobManager.initQueues availableQueues workerCount).queueLocks = []
        ↔ (JobManager.initQueues availableQueues workerCount).overlap = 0
    rw [initQueues_queueLocks, initQueues_overlap]
    simp only [List.map_eq_nil_iff, List.range_eq_nil]
    omega

/-- Witness of C3 at the scenario `availableQueues = 4`, `workerCount = 4`
(`overlap = 3`, three locks). -/
theorem C3_overlap_and_lock_pool_size_witness :
    (1 : Nat) ≤ 4 ∧ ∃ jm, JobManager.initWorkers 4 4 = some jm
      ∧ (jm.overlap : Int) = max 0 (((4 : Nat) : Int) + 3 - ((4 : Nat) : Int))
      ∧ jm.queueLocks.length = min 4 jm.overlap
      ∧ jm.queueLocks.Nodup
      ∧ (jm.queueLocks = [] ↔ jm.overlap = 0) :=
  ⟨by decide, C3_overlap_and_lock_pool_size 4 4 (by decide)⟩

/-- C4: in the skip-zero regime (`0 < overlap < graphicsQueueCount`) the modulus
`graphicsQueueCount - 1` is not zero, `getQueueIndex(x)` is `(x mod (graphicsQueueCount - 1)) + 1`
for every ordinal `x`, that value lies in `[1, graphicsQueueCount)`, so it is never 0, and
`getQueueLock(0)` is `nullptr`. -/
theorem C4_skip_zero_regime (jm : JobManager) (x : Nat)
    (hpos : 0 < jm.overlap) (hlt : jm.overlap < jm.graphicsQueueCount) :
    jm.graphicsQueueCount - 1 ≠ 0
      ∧ jm.getQueueIndex x = some (x % (jm.graphicsQueueCount - 1) + 1)
      ∧ 1 ≤ x % (jm.graphicsQueueCount - 1) + 1
      ∧ x % (jm.graphicsQueueCount - 1) + 1 < jm.graphicsQueueCount
      ∧ jm.getQueueIndex x ≠ some 0
      ∧ jm.getQueueLock 0 = none := by
  have hm : jm.graphicsQueueCount - 1 ≠ 0 := by omega
  have hidx : jm.getQueueIndex x = some (x % (jm.graphicsQueueCount - 1) + 1) := by
    unfold JobManager.getQueueIndex
    rw [if_neg (by omega), if_pos hlt, if_neg hm]
  have hmod : x % (jm.graphicsQueueCount - 1) < jm.graphicsQueueCount - 1 :=
    Nat.mod_lt _ (by omega)
  refine ⟨hm, hidx, by omega, by omega, ?_, ?_⟩
  · rw [hidx]
    simp
  · unfold JobManager.getQueueLock
    rw [if_pos hlt, if_pos rfl]

/-- Witness of C4 at the state `init` builds for `availableQueues = 4`, `workerCount = 4`
(`overlap = 3`), at ordinal 6. -/
theorem C4_skip_zero_regime_witness :
    (0 < (JobManager.initQueues 4 4).overlap
      ∧ (JobManager.initQueues 4 4).overlap < (JobManager.initQueues 4 4).graphicsQueueCount)
    ∧ ((JobManager.initQueues 4 4).graphicsQueueCount - 1 ≠ 0
      ∧ (JobManager.initQueues 4 4).getQueueIndex 6
          = some (6 % ((JobManager.initQueues 4 4).graphicsQueueCount - 1) + 1)
      ∧ 1 ≤ 6 % ((JobManager.initQueues 4 4).graphicsQueueCount - 1) + 1
      ∧ 6 % ((JobManager.initQueues 4 4).graphicsQueueCount - 1) + 1
          < (JobManager.initQueues 4 4).graphicsQueueCount
      ∧ (JobManager.initQueues 4 4).getQueueIndex 6 ≠ some 0
      ∧ (JobManager.initQueues 4 4).getQueueLock 0 = none) :=
  ⟨by decide, C4_skip_zero_regime (JobManager.initQueues 4 4) 6 (by decide) (by decide)⟩

/-- C5 as stated fails: at `availableQueues = 4`, `workerCount = 4` (`overlap = 3`, the
skip-zero regime) `getQueueIndex(0)` is 1, not 0, and `getQueueLock(1)` is the lock pool
entry 0, not `nullptr`. -/
theorem C5_ordinal_zero_not_reserved :
    0 < (JobManager.initQueues 4 4).overlap
      ∧ (JobManager.initQueues 4 4).overlap < (JobManager.initQueues 4 4).graphicsQueueCount
      ∧ (JobManager.initQueues 4 4).getQueueIndex 0 = some 1
      ∧ (JobManager.initQueues 4 4).getQueueIndex 0 ≠ some 0
      ∧ (JobManager.initQueues 4 4).getQueueLock 1 = some ⟨0⟩
      ∧ (JobManager.initQueues 4 4).getQueueLock 1 ≠ none := by
  decide

/-- C5, amended: in the skip-zero regime of the state built by `init`, every ordinal, 0
included, is mapped through `(ordinal mod (availableQueues - 1)) + 1`; so `getQueueIndex(0)`
is 1, `getQueueLock(getQueueIndex(0))` is the lock pool entry 0 (a lock), and no ordinal is
given queue index 0. -/
theorem C5_ordinal_zero_mapped_like_others (availableQueues workerCount : Nat)
    (hpos : 0 < (JobManager.initQueues availableQueues workerCount).overlap)
    (hlt : (JobManager.initQueues availableQueues workerCount).overlap < availableQueues) :
    (∀ x, (JobManager.initQueues availableQueues workerCount).getQueueIndex x
        = some (x % (availableQueues - 1) + 1))
      ∧ (JobManager.initQueues availableQueues workerCount).getQueueIndex 0 = some 1
      ∧ (JobManager.initQueues availableQueues workerCount).getQueueLock 1 = some ⟨0⟩
      ∧ (JobManager.initQueues availableQueues workerCount).queueLocks[0]? = some ⟨0⟩
      ∧ (∀ x, (JobManager.initQueues availableQueues workerCount).getQueueIndex x ≠ some 0) := by
  have hov := initQueues_overlap availableQueues workerCount
  have hidx : ∀ x, (JobManager.initQueues availableQueues workerCount).getQueueIndex x
      = some (x % (availableQueues - 1) + 1) := by
    intro x
    unfold JobManager.getQueueIndex
    rw [initQueues_graphicsQueueCount, if_neg (by omega), if_pos hlt, if_neg (by omega)]
  refine ⟨hidx, ?_, ?_, ?_, ?_⟩
  · rw [hidx]
    simp
  · unfold JobManager.getQueueLock
    rw [initQueues_graphicsQueueCount, if_pos hlt, if_neg (by decide), lockInPool_initQueues,
      if_pos (by omega)]
  · rw [initQueues_queueLocks, List.getElem?_map, List.getElem?_range (by omega)]
    rfl
  · intro x
    rw [hidx]
    simp

/-- Witness of the amended C5 at `availableQueues = 4`, `workerCount = 4`. -/
theorem C5_ordinal_zero_mapped_like_others_witness :
    (0 < (JobManager.initQueues 4 4).overlap ∧ (JobManager.initQueues 4 4).overlap < 4)
    ∧ ((∀ x, (JobManager.initQueues 4 4).getQueueIndex x = some (x % (4 - 1) + 1))
      ∧ (JobManager.initQueues 4 4).getQueueIndex 0 = some 1
      ∧ (JobManager.initQueues 4 4).getQueueLock 1 = some ⟨0⟩
      ∧ (JobManager.initQueues 4 4).queueLocks[0]? = some ⟨0⟩
      ∧ (∀ x, (JobManager.initQueues 4 4).getQueueIndex x ≠ some 0)) :=
  ⟨by decide, C5_ordinal_zero_mapped_like_others 4 4 (by decide) (by decide)⟩

/-- C6: when `workerCount + 3 <= availableQueues` the overlap is 0, `getQueueIndex` returns
every ordinal unchanged, hence is injective over `[0, desiredQueues)` and maps the ordinals
`0 .. desiredQueues - 1` to the indices `0 .. desiredQueues - 1` in order; the lock pool is
empty and `getQueueLock` is `nullptr` for every queue index. -/
theorem C6_no_overlap_identity (availableQueues workerCount : Nat)
    (h : workerCount + 3 ≤ availableQueues) :
    (JobManager.initQueues availableQueues workerCount).overlap = 0
      ∧ (∀ x, (JobManager.initQueues availableQueues workerCount).getQueueIndex x = some x)
      ∧ (∀ a b, a < workerCount + 3 → b < workerCount + 3 →
          (JobManager.initQueues availableQueues workerCount).getQueueIndex a
            = (JobManager.initQueues availableQueues workerCount).getQueueIndex b → a = b)
      ∧ (List.range (workerCount + 3)).map
            (JobManager.initQueues availableQueues workerCount).getQueueIndex
          = (List.range (workerCount + 3)).map some
      ∧ (JobManager.initQueues availableQueues workerCount).queueLocks = []
      ∧ (∀ q, (JobManager.initQueues availableQueues workerCount).getQueueLock q = none) := by
  have hov : (JobManager.initQueues availableQueues workerCount).overlap = 0 := by
    rw [initQueues_overlap]
    omega
  have hidx : ∀ x, (JobManager.initQueues availableQueues workerCount).getQueueIndex x
      = some x := by
    intro x
    unfold JobManager.getQueueIndex
    rw [if_pos hov]
  have hpool : ∀ q, (JobManager.initQueues availableQueues workerCount).lockInPool q = none := by
    intro q
    rw [lockInPool_initQueues, if_neg (by omega)]
  refine ⟨hov, hidx, ?_, ?_, ?_, ?_⟩
  · intro a b _ _ hab
    rw [hidx, hidx] at hab
    exact Option.some.inj hab
  · exact List.map_congr_left (fun x _ => hidx x)
  · rw [initQueues_queueLocks]
    have : min availableQueues (workerCount + 3 - availableQueues) = 0 := by omega
    rw [this]
    rfl
  · intro q
    unfold JobManager.getQueueLock
    split_ifs
    · rfl
    · exact hpool _
    · exact hpool _

/-- Witness of C6 at the scenario `availableQueues = 8`, `workerCount = 2`:
`desiredQueues = 5`, and the five ordinals get the indices 0, 1, 2, 3, 4. -/
theorem C6_no_overlap_identity_witness :
    (2 + 3 ≤ 8)
    ∧ ((JobManager.initQueues 8 2).overlap = 0
      ∧ (∀ x, (JobManager.initQueues 8 2).getQueueIndex x = some x)
      ∧ (∀ a b, a < 2 + 3 → b < 2 + 3 →
          (JobManager.initQueues 8 2).getQueueIndex a
            = (JobManager.initQueues 8 2).getQueueIndex b → a = b)
      ∧ (List.range (2 + 3)).map (JobManager.initQueues 8 2).getQueueIndex
          = (List.range (2 + 3)).map some
      ∧ (JobManager.initQueues 8 2).queueLocks = []
      ∧ (∀ q, (JobManager.initQueues 8 2).getQueueLock q = none)) :=
  ⟨by decide, C6_no_overlap_identity 8 2 (by decide)⟩

/-- C7: in the saturated regime (`overlap >= availableQueues >= 1`) of the state built by
`init`, `getQueueIndex(x)` is `x mod availableQueues` for every ordinal `x` (ordinal 0 gets
queue 0 like any other), the lock pool has `availableQueues` entries, and `getQueueLock(q)`
is the lock pool entry `q` for every `q < availableQueues`, queue 0 included. -/
theorem C7_saturated_regime (availableQueues workerCount : Nat)
    (hA : 1 ≤ availableQueues)
    (hsat : availableQueues ≤ (JobManager.initQueues availableQueues workerCount).overlap) :
    (∀ x, (JobManager.initQueues availableQueues workerCount).getQueueIndex x
        = some (x % availableQueues))
      ∧ (JobManager.initQueues availableQueues workerCount).getQueueIndex 0 = some 0
      ∧ (JobManager.initQueues availableQueues workerCount).queueLocks.length = availableQueues
      ∧ (∀ q, q < availableQueues →
          (JobManager.initQueues availableQueues workerCount).getQueueLock q = some ⟨q⟩
            ∧ (JobManager.initQueues availableQueues workerCount).queueLocks[q]? = some ⟨q⟩) := by
  have hov := initQueues_overlap availableQueues workerCount
  have hidx : ∀ x, (JobManager.initQueues availableQueues workerCount).getQueueIndex x
      = some (x % availableQueues) := by
    intro x
    unfold JobManager.getQueueIndex
    rw [initQueues_graphicsQueueCount, if_neg (by omega), if_neg (by omega), if_neg (by omega)]
  refine ⟨hidx, ?_, ?_, ?_⟩
  · rw [hidx, Nat.zero_mod]
  · rw [initQueues_queueLocks]
    simp only [List.length_map, List.length_range]
    omega
  · intro q hq
    constructor
    · unfold JobManager.getQueueLock
      rw [initQueues_graphicsQueueCount, if_neg (by omega), lockInPool_initQueues,
        if_pos (by omega)]
    · rw [initQueues_queueLocks, List.getElem?_map, List.getElem?_range (by omega)]
      rfl

/-- Witness of C7 at the boundary `overlap == availableQueues`: `availableQueues = 2`,
`workerCount = 1` (`desiredQueues = 4`, `overlap = 2`). -/
theorem C7_saturated_regime_witness :
    ((1 : Nat) ≤ 2 ∧ 2 ≤ (JobManager.initQueues 2 1).overlap
      ∧ (JobManager.initQueues 2 1).overlap = 2)
    ∧ ((∀ x, (JobManager.initQueues 2 1).getQueueIndex x = some (x % 2))
      ∧ (JobManager.initQueues 2 1).getQueueIndex 0 = some 0
      ∧ (JobManager.initQueues 2 1).queueLocks.length = 2
      ∧ (∀ q, q < 2 →
          (JobManager.initQueues 2 1).getQueueLock q = some ⟨q⟩
            ∧ (JobManager.initQueues 2 1).queueLocks[q]? = some ⟨q⟩)) :=
  ⟨by decide, C7_saturated_regime 2 1 (by decide) (by decide)⟩

/-- The worker count on the values for which the unsigned subtraction does not wrap: for
`1 <= h < 2^32` it is `max(1, h - 1)`, at least 1 and at most `max(1, h)`. -/
theorem numThreads_of_pos (h : Nat) (h1 : 1 ≤ h) (h32 : h < 4294967296) :
    numThreads h = max 1 (h - 1) ∧ 1 ≤ numThreads h ∧ numThreads h ≤ max 1 h := by
  simp only [numThreads, subUint32, UINT32_SIZE]
  omega

/-- C8, evaluated on the code: when the hardware concurrency is reported as 0, the unsigned
subtraction `0 - 1` wraps to `4294967295`, so `init` asks for `4294967295` workers, not 1. -/
theorem C8_zero_concurrency_wraps :
    numThreads 0 = 4294967295
      ∧ ((numThreads 0 : Nat) : Int) ≠ max 1 ((0 : Int) - 1)
      ∧ ¬ numThreads 0 ≤ 1 := by
  decide

/-! ## Device: queue-family discovery -/

/-- Invariant rule for the loop of `findQueueFamilies`: a property of the visited prefix
and the recorded indices that every iteration preserves holds at the end of the loop. -/
theorem findQueueFamiliesLoop_invariant (presentSupport : Nat → Bool)
    (Inv : List VkQueueFamilyProperties → QueueFamilyIndices → Prop)
    (hstep : ∀ visited queueFamily indices, Inv visited indices →
      Inv (visited ++ [queueFamily])
        (findQueueFamiliesStep presentSupport indices visited.length queueFamily)) :
    ∀ rest visited indices, Inv visited indices →
      Inv (visited ++ rest) (findQueueFamiliesLoop presentSupport rest visited.length indices) := by
  intro rest
  induction rest with
  | nil =>
    intro visited indices h
    simpa [findQueueFamiliesLoop] using h
  | cons queueFamily rest ih =>
    intro visited indices h
    have h1 := ih (visited ++ [queueFamily]) _ (hstep visited queueFamily indices h)
    simpa [findQueueFamiliesLoop] using h1

/-- The rule applied to the whole run of `findQueueFamilies`. -/
theorem findQueueFamilies_invariant (presentSupport : Nat → Bool)
    (Inv : List VkQueueFamilyProperties → QueueFamilyIndices → Prop)
    (h0 : Inv [] QueueFamilyIndices.unset)
    (hstep : ∀ visited queueFamily indices, Inv visited indices →
      Inv (visited ++ [queueFamily])
        (findQueueFamiliesStep presentSupport indices visited.length queueFamily))
    (queueFamilies : List VkQueueFamilyProperties) :
    Inv queueFamilies (Device.findQueueFamilies queueFamilies presentSupport) := by
  have h := findQueueFamiliesLoop_invariant presentSupport Inv hstep queueFamilies [] _ h0
  simpa [Device.findQueueFamilies] using h

theorem findQueueFamiliesStep_present (presentSupport : Nat → Bool)
    (indices : QueueFamilyIndices) (i : Nat) (queueFamily : VkQueueFamilyProperties) :
    (findQueueFamiliesStep presentSupport indices i queueFamily).present
      = if presentSupport i then some i else indices.present := by
  unfold findQueueFamiliesStep
  split_ifs <;> rfl

theorem findQueueFamiliesStep_graphics (presentSupport : Nat → Bool)
    (indices : QueueFamilyIndices) (i : Nat) (queueFamily : VkQueueFamilyProperties) :
    ((findQueueFamiliesStep presentSupport indices i queueFamily).graphics,
      (findQueueFamiliesStep presentSupport indices i queueFamily).graphicsQueueCount)
      = if supportsGraphics queueFamily ∧ queueFamily.queueCount > indices.graphicsQueueCount
        then (some i, queueFamily.queueCount)
        else (indices.graphics, indices.graphicsQueueCount) := by
  unfold findQueueFamiliesStep
  split_ifs <;> rfl

/-- An entry of a list extended by one element is an entry of the list or the new last
element. -/
theorem getElem?_snoc_cases {α : Type} (l : List α) (a b : α) (i : Nat)
    (h : (l ++ [a])[i]? = some b) :
    (i < l.length ∧ l[i]? = some b) ∨ (i = l.length ∧ a = b) := by
  rw [List.getElem?_append] at h
  split_ifs at h with hlt
  · exact Or.inl ⟨hlt, h⟩
  · right
    have h0 : i - l.length = 0 := by
      by_contra hne
      simp [List.getElem?_cons, hne] at h
    simp [h0] at h
    exact ⟨by omega, h⟩

theorem getElem?_lt_length {α : Type} (l : List α) (b : α) (i : Nat) (h : l[i]? = some b) :
    i < l.length := by
  obtain ⟨hlt, -⟩ := List.getElem?_eq_some.mp h
  exact hlt

theorem graphicsInv_step (presentSupport : Nat → Bool)
    (visited : List VkQueueFamilyProperties) (queueFamily : VkQueueFamilyProperties)
    (indices : QueueFamilyIndices) (h : GraphicsInv visited indices) :
    GraphicsInv (visited ++ [queueFamily])
      (findQueueFamiliesStep presentSupport indices visited.length queueFamily) := by
  obtain ⟨hmax, hnone, hsome⟩ := h
  have hpair := findQueueFamiliesStep_graphics presentSupport indices visited.length queueFamily
  by_cases hc : supportsGraphics queueFamily
      ∧ queueFamily.queueCount > indices.graphicsQueueCount
  · rw [if_pos hc] at hpair
    have hg := congrArg Prod.fst hpair
    have hn := congrArg Prod.snd hpair
    simp only at hg hn
    refine ⟨?_, ?_, ?_⟩
    · intro i qf hi hsg
      rw [hn]
      rcases getElem?_snoc_cases _ _ _ _ hi with ⟨_, hv⟩ | ⟨_, rfl⟩
      · have := hmax i qf hv hsg
        omega
      · exact le_refl _
    · intro hgn
      rw [hg] at hgn
      cases hgn
    · intro g hgg
      rw [hg] at hgg
      cases hgg
      rw [hn]
      refine ⟨by omega, queueFamily, List.getElem?_concat_length _ _, hc.1, rfl, ?_⟩
      intro j earlier hj hje hsg
      rw [List.getElem?_append_left hj] at hje
      have := hmax j earlier hje hsg
      omega
  · rw [if_neg hc] at hpair
    have hg := congrArg Prod.fst hpair
    have hn := congrArg Prod.snd hpair
    simp only at hg hn
    refine ⟨?_, ?_, ?_⟩
    · intro i qf hi hsg
      rw [hn]
      rcases getElem?_snoc_cases _ _ _ _ hi with ⟨_, hv⟩ | ⟨_, rfl⟩
      · exact hmax i qf hv hsg
      · by_contra hgt
        exact hc ⟨hsg, by omega⟩
    · intro hgn
      rw [hn]
      exact hnone (hg ▸ hgn)
    · intro g hgg
      rw [hg] at hgg
      rw [hn]
      obtain ⟨h1, qf, hqf, hsg, hcnt, hearlier⟩ := hsome g hgg
      have hlt := getElem?_lt_length _ _ _ hqf
      refine ⟨h1, qf, ?_, hsg, hcnt, ?_⟩
      · rw [List.getElem?_append_left hlt]
        exact hqf
      · intro j earlier hj hje hsge
        rw [List.getElem?_append_left (by omega)] at hje
        exact hearlier j earlier hj hje hsge

theorem findQueueFamilies_graphicsInv (queueFamilies : List VkQueueFamilyProperties)
    (presentSupport : Nat → Bool) :
    GraphicsInv queueFamilies (Device.findQueueFamilies queueFamilies presentSupport) := by
  refine findQueueFamilies_invariant presentSupport GraphicsInv ?_
    (graphicsInv_step presentSupport) queueFamilies
  refine ⟨?_, fun _ => rfl, ?_⟩
  · intro i qf hi
    simp at hi
  · intro g hg
    simp [QueueFamilyIndices.unset] at hg

/-- C9: `findQueueFamilies`, starting from an unset graphics index and a graphics queue
count of 0, ends with `graphicsQueueCount` an upper bound of the queue counts of all
graphics-capable families; a recorded graphics index names a graphics-capable family whose
count is that maximum, and the first such family (every earlier graphics-capable family has
a smaller count); the graphics index is set iff some graphics-capable family has a queue
count of at least 1, and when it is set `graphicsQueueCount >= 1`; when it is not set the
count is still 0. -/
theorem C9_graphics_family_has_most_queues (queueFamilies : List VkQueueFamilyProperties)
    (presentSupport : Nat → Bool) :
    (∀ (i : Nat) (queueFamily : VkQueueFamilyProperties),
        queueFamilies[i]? = some queueFamily → supportsGraphics queueFamily →
        queueFamily.queueCount
          ≤ (Device.findQueueFamilies queueFamilies presentSupport).graphicsQueueCount)
      ∧ (∀ g : Nat, (Device.findQueueFamilies queueFamilies presentSupport).graphics = some g →
          ∃ queueFamily, queueFamilies[g]? = some queueFamily ∧ supportsGraphics queueFamily
            ∧ queueFamily.queueCount
                = (Device.findQueueFamilies queueFamilies presentSupport).graphicsQueueCount
            ∧ ∀ (j : Nat) (earlier : VkQueueFamilyProperties), j < g →
                queueFamilies[j]? = some earlier →
                supportsGraphics earlier →
                earlier.queueCount
                  < (Device.findQueueFamilies queueFamilies presentSupport).graphicsQueueCount)
      ∧ ((Device.findQueueFamilies queueFamilies presentSupport).graphics ≠ none
          ↔ ∃ (i : Nat) (queueFamily : VkQueueFamilyProperties),
              queueFamilies[i]? = some queueFamily
              ∧ supportsGraphics queueFamily ∧ 1 ≤ queueFamily.queueCount)
      ∧ ((Device.findQueueFamilies queueFamilies presentSupport).graphics ≠ none →
          1 ≤ (Device.findQueueFamilies queueFamilies presentSupport).graphicsQueueCount)
      ∧ ((Device.findQueueFamilies queueFamilies presentSupport).graphics = none →
          (Device.findQueueFamilies queueFamilies presentSupport).graphicsQueueCount = 0) := by
  obtain ⟨hmax, hnone, hsome⟩ := findQueueFamilies_graphicsInv queueFamilies presentSupport
  refine ⟨hmax, ?_, ?_, ?_, hnone⟩
  · intro g hg
    exact (hsome g hg).2
  · constructor
    · intro hne
      obtain ⟨g, hg⟩ := Option.ne_none_iff_exists'.mp hne
      obtain ⟨h1, qf, hqf, hsg, hcnt, -⟩ := hsome g hg
      exact ⟨g, qf, hqf, hsg, by omega⟩
    · rintro ⟨i, qf, hqf, hsg, h1⟩ hnone'
      have := hmax i qf hqf hsg
      have := hnone hnone'
      omega
  · intro hne
    obtain ⟨g, hg⟩ := Option.ne_none_iff_exists'.mp hne
    exact (hsome g hg).1

theorem presentInv_step (presentSupport : Nat → Bool)
    (visited : List VkQueueFamilyProperties) (queueFamily : VkQueueFamilyProperties)
    (indices : QueueFamilyIndices) (h : PresentInv presentSupport visited indices) :
    PresentInv presentSupport (visited ++ [queueFamily])
      (findQueueFamiliesStep presentSupport indices visited.length queueFamily) := by
  obtain ⟨hnone, hsome⟩ := h
  have hp := findQueueFamiliesStep_present presentSupport indices visited.length queueFamily
  have hlen : (visited ++ [queueFamily]).length = visited.length + 1 := by simp
  by_cases hc : presentSupport visited.length = true
  · rw [if_pos hc] at hp
    refine ⟨?_, ?_⟩
    · intro hn
      rw [hp] at hn
      cases hn
    · intro p hpp
      rw [hp] at hpp
      cases hpp
      refine ⟨by omega, hc, ?_⟩
      intro j h1 h2
      omega
  · rw [if_neg hc] at hp
    have hfalse : presentSupport visited.length = false := by simpa using hc
    refine ⟨?_, ?_⟩
    · intro hn j hj
      rw [hp] at hn
      by_cases hjl : j < visited.length
      · exact hnone hn j hjl
      · have : j = visited.length := by omega
        rw [this]
        exact hfalse
    · intro p hpp
      rw [hp] at hpp
      obtain ⟨h1, h2, h3⟩ := hsome p hpp
      refine ⟨by omega, h2, ?_⟩
      intro j hj1 hj2
      by_cases hjl : j < visited.length
      · exact h3 j hj1 hjl
      · have : j = visited.length := by omega
        rw [this]
        exact hfalse

theorem findQueueFamilies_presentInv (queueFamilies : List VkQueueFamilyProperties)
    (presentSupport : Nat → Bool) :
    PresentInv presentSupport queueFamilies
      (Device.findQueueFamilies queueFamilies presentSupport) := by
  refine findQueueFamilies_invariant presentSupport (PresentInv presentSupport) ?_
    (presentInv_step presentSupport) queueFamilies
  refine ⟨?_, ?_⟩
  · intro _ j hj
    simp at hj
  · intro p hp
    simp [QueueFamilyIndices.unset] at hp

/-- C10 as stated fails: with two families that both support presentation, of which only
family 0 is graphics-capable, `findQueueFamilies` records graphics family 0 and present
family 1, although the graphics family supports presentation. -/
theorem C10_present_not_graphics_family :
    (Device.findQueueFamilies [⟨7, 16⟩, ⟨6, 2⟩] (fun _ => true)).graphics = some 0
      ∧ (fun _ : Nat => true) 0 = true
      ∧ (Device.findQueueFamilies [⟨7, 16⟩, ⟨6, 2⟩] (fun _ => true)).present = some 1
      ∧ (Device.findQueueFamilies [⟨7, 16⟩, ⟨6, 2⟩] (fun _ => true)).present
          ≠ (Device.findQueueFamilies [⟨7, 16⟩, ⟨6, 2⟩] (fun _ => true)).graphics := by
  decide

/-- C10, amended: `findQueueFamilies` sets the present index iff some family supports
presentation to the surface, and the index it records is the last family that supports
presentation; so when the family chosen as graphics family supports presentation, the present
index equals the graphics index exactly when no later family supports presentation. -/
theorem C10_present_is_last_supporting_family (queueFamilies : List VkQueueFamilyProperties)
    (presentSupport : Nat → Bool) :
    ((Device.findQueueFamilies queueFamilies presentSupport).present ≠ none
        ↔ ∃ i : Nat, i < queueFamilies.length ∧ presentSupport i = true)
      ∧ (∀ p : Nat, (Device.findQueueFamilies queueFamilies presentSupport).present = some p
          ↔ (p < queueFamilies.length ∧ presentSupport p = true
              ∧ ∀ j : Nat, p < j → j < queueFamilies.length → presentSupport j = false))
      ∧ (∀ g : Nat, (Device.findQueueFamilies queueFamilies presentSupport).graphics = some g →
          presentSupport g = true →
          ((Device.findQueueFamilies queueFamilies presentSupport).present
              = (Device.findQueueFamilies queueFamilies presentSupport).graphics
            ↔ ∀ j : Nat, g < j → j < queueFamilies.length → presentSupport j = false)) := by
  obtain ⟨hnone, hsome⟩ := findQueueFamilies_presentInv queueFamilies presentSupport
  have hlast : ∀ p : Nat,
      (Device.findQueueFamilies queueFamilies presentSupport).present = some p
        ↔ (p < queueFamilies.length ∧ presentSupport p = true
            ∧ ∀ j : Nat, p < j → j < queueFamilies.length → presentSupport j = false) := by
    intro p
    constructor
    · exact hsome p
    · rintro ⟨h1, h2, h3⟩
      cases hpr : (Device.findQueueFamilies queueFamilies presentSupport).present with
      | none =>
        have := hnone hpr p h1
        rw [h2] at this
        cases this
      | some q =>
        obtain ⟨hq1, hq2, hq3⟩ := hsome q hpr
        rcases Nat.lt_trichotomy q p with hlt | heq | hgt
        · have := hq3 p hlt h1
          rw [h2] at this
          cases this
        · rw [heq]
        · have := h3 q hgt hq1
          rw [hq2] at this
          cases this
  refine ⟨?_, hlast, ?_⟩
  · constructor
    · intro hne
      obtain ⟨p, hp⟩ := Option.ne_none_iff_exists'.mp hne
      obtain ⟨h1, h2, -⟩ := hsome p hp
      exact ⟨p, h1, h2⟩
    · rintro ⟨i, hi, hps⟩ hn
      have := hnone hn i hi
      rw [hps] at this
      cases this
  · intro g hg hps
    obtain ⟨-, -, hgsome⟩ := findQueueFamilies_graphicsInv queueFamilies presentSupport
    obtain ⟨-, qf, hqf, -⟩ := hgsome g hg
    have hglt := getElem?_lt_length _ _ _ hqf
    rw [hg, hlast g]
    constructor
    · rintro ⟨-, -, h3⟩
      exact h3
    · intro h3
      exact ⟨hglt, hps, h3⟩

/-! ## Device: rating of a candidate -/

theorem foldl_erase_spec (available : List String) :
    ∀ required : List String, required.Nodup →
      ∀ x, x ∈ available.foldl (fun required extensionName => required.erase extensionName)
          required ↔ x ∈ required ∧ x ∉ available := by
  induction available with
  | nil =>
    intro required _ x
    simp
  | cons a rest ih =>
    intro required hnd x
    rw [List.foldl_cons, ih (required.erase a) (hnd.erase a) x, hnd.mem_erase_iff]
    simp only [List.mem_cons, not_or]
    tauto

/-- The extension check succeeds exactly when every required extension name is among the
available ones. -/
theorem checkDeviceExtensionSupport_iff (deviceExtensions : List String)
    (device : VkPhysicalDevice) :
    Device.checkDeviceExtensionSupport deviceExtensions device = true
      ↔ ∀ e ∈ deviceExtensions, e ∈ device.availableExtensions := by
  unfold Device.checkDeviceExtensionSupport
  simp only [List.isEmpty_iff, List.eq_nil_iff_forall_not_mem]
  constructor
  · intro h e he
    by_contra hne
    exact h e ((foldl_erase_spec _ _ (List.nodup_dedup _) e).mpr ⟨List.mem_dedup.mpr he, hne⟩)
  · intro h e he
    obtain ⟨h1, h2⟩ := (foldl_erase_spec _ _ (List.nodup_dedup _) e).mp he
    exact h2 (h e (List.mem_dedup.mp h1))

/-- The compound assignment is the plain sum as long as the sum fits an `int`. -/
theorem addAssignUint32_of_small (score : Int) (x : Nat) (h0 : 0 ≤ score)
    (hsum : score + x < 2147483648) : addAssignUint32 score x = score + x := by
  unfold addAssignUint32 toInt32 UINT32_SIZE
  have hs : (score % 4294967296).toNat = score.toNat := by
    rw [Int.emod_eq_of_lt h0 (by omega)]
  rw [hs]
  have hx : x % 4294967296 = x := Nat.mod_eq_of_lt (by omega)
  rw [hx]
  have hlt : (score.toNat + x) % 4294967296 = score.toNat + x := Nat.mod_eq_of_lt (by omega)
  rw [hlt, if_pos (by omega)]
  omega

/-- The result of the compound assignment is an `int`: it is below `2^31`. -/
theorem addAssignUint32_lt (score : Int) (x : Nat) : addAssignUint32 score x < 2147483648 := by
  unfold addAssignUint32 toInt32 UINT32_SIZE
  split_ifs with hlt <;> omega

/-- C11, amended: `rateDeviceSuitability` returns 0 when the graphics or the present index is
missing, when a required device extension is not available, when the surface format list or
the present-mode list is empty, and when sampler anisotropy is unsupported; in every other
case it returns exactly `(1000 if the device type is discrete GPU, else 0) +
maxImageDimension2D` if that sum is below `2^31` (the result is an `int`), and only then. -/
theorem C11_rateDeviceSuitability_score (deviceExtensions : List String)
    (candidate : PhysicalDeviceCandidate) :
    ((candidate.indices.graphics = none ∨ candidate.indices.present = none) →
        Device.rateDeviceSuitability deviceExtensions candidate = 0)
      ∧ ((∃ e ∈ deviceExtensions, e ∉ candidate.physicalDevice.availableExtensions) →
          Device.rateDeviceSuitability deviceExtensions candidate = 0)
      ∧ ((candidate.swapChainSupport.formats = []
            ∨ candidate.swapChainSupport.presentModes = []) →
          Device.rateDeviceSuitability deviceExtensions candidate = 0)
      ∧ (candidate.physicalDevice.samplerAnisotropy = false →
          Device.rateDeviceSuitability deviceExtensions candidate = 0)
      ∧ (candidate.indices.graphics ≠ none → candidate.indices.present ≠ none →
          (∀ e ∈ deviceExtensions, e ∈ candidate.physicalDevice.availableExtensions) →
          candidate.swapChainSupport.formats ≠ [] →
          candidate.swapChainSupport.presentModes ≠ [] →
          candidate.physicalDevice.samplerAnisotropy = true →
          (Device.rateDeviceSuitability deviceExtensions candidate
              = (if candidate.physicalDevice.deviceType = VK_PHYSICAL_DEVICE_TYPE_DISCRETE_GPU
                  then 1000 else 0)
                + (candidate.physicalDevice.maxImageDimension2D : Int)
            ↔ (if candidate.physicalDevice.deviceType = VK_PHYSICAL_DEVICE_TYPE_DISCRETE_GPU
                  then (1000 : Int) else 0)
                + (candidate.physicalDevice.maxImageDimension2D : Int) < 2147483648)) := by
  refine ⟨?_, ?_, ?_, ?_, ?_⟩
  · intro h
    have hc : candidate.indices.isComplete = false := by
      unfold QueueFamilyIndices.isComplete
      rcases h with h | h <;> simp [h]
    unfold Device.rateDeviceSuitability
    simp [hc]
  · rintro ⟨e, he, hne⟩
    have hx : Device.checkDeviceExtensionSupport deviceExtensions candidate.physicalDevice
        = false := by
      cases hb : Device.checkDeviceExtensionSupport deviceExtensions candidate.physicalDevice
      · rfl
      · exact absurd ((checkDeviceExtensionSupport_iff _ _).mp hb e he) hne
    unfold Device.rateDeviceSuitability
    simp only [hx]
    split_ifs <;> first | rfl | simp_all
  · intro h
    have hl : (candidate.swapChainSupport.formats.isEmpty
        || candidate.swapChainSupport.presentModes.isEmpty) = true := by
      rcases h with h | h <;> simp [h]
    unfold Device.rateDeviceSuitability
    simp only [hl]
    split_ifs <;> rfl
  · intro h
    unfold Device.rateDeviceSuitability
    simp only [h]
    split_ifs <;> first | rfl | simp_all
  · intro hg hp hext hf hm ha
    have hc : candidate.indices.isComplete = true := by
      unfold QueueFamilyIndices.isComplete
      obtain ⟨g, hg⟩ := Option.ne_none_iff_exists'.mp hg
      obtain ⟨q, hp⟩ := Option.ne_none_iff_exists'.mp hp
      simp [hg, hp]
    have hx := (checkDeviceExtensionSupport_iff deviceExtensions candidate.physicalDevice).mpr hext
    have hl : (candidate.swapChainSupport.formats.isEmpty
        || candidate.swapChainSupport.presentModes.isEmpty) = false := by
      simp [List.isEmpty_iff, hf, hm]
    unfold Device.rateDeviceSuitability
    simp only [hc, hx, hl, ha, Bool.not_true, Bool.false_eq_true, if_false]
    split_ifs with hd
    · constructor
      · intro heq
        have := addAssignUint32_lt (0 + 1000) candidate.physicalDevice.maxImageDimension2D
        omega
      · intro hrange
        rw [addAssignUint32_of_small _ _ (by omega) (by omega)]
        omega
    · constructor
      · intro heq
        have := addAssignUint32_lt 0 candidate.physicalDevice.maxImageDimension2D
        omega
      · intro hrange
        rw [addAssignUint32_of_small _ _ (by omega) (by omega)]

/-- Witness of the amended C11, at the upper end of the range: an integrated GPU (device
type 1) with complete indices, the required extension, one surface format, one present mode,
anisotropy and `maxImageDimension2D = 2147483647` is rated 2147483647. -/
theorem C11_rateDeviceSuitability_score_witness :
    Device.rateDeviceSuitability ["VK_KHR_swapchain"]
        { physicalDevice :=
            { queueFamilies := [⟨7, 16⟩], presentSupport := fun _ => true,
              surfaceCapabilities := 0, surfaceFormats := [44], surfacePresentModes := [2],
              availableExtensions := ["VK_KHR_maintenance1", "VK_KHR_swapchain"],
              deviceType := 1, maxImageDimension2D := 2147483647, samplerAnisotropy := true },
          indices := { graphics := some 0, graphicsQueueCount := 16, present := some 0 },
          swapChainSupport := { capabilities := 0, formats := [44], presentModes := [2] } }
      = (if (1 : Nat) = VK_PHYSICAL_DEVICE_TYPE_DISCRETE_GPU then 1000 else 0)
          + ((2147483647 : Nat) : Int) :=
  ((C11_rateDeviceSuitability_score ["VK_KHR_swapchain"] _).2.2.2.2
    (by simp) (by simp) (by simp) (by simp) (by simp) rfl).mpr (by decide)

/-- C11 as stated fails outside the range of `int`: a discrete GPU with complete indices, the
required extension, one surface format, one present mode, anisotropy and
`maxImageDimension2D = 4294967295` is rated 999, not `1000 + 4294967295`, since the sum
wraps in `unsigned int`. -/
theorem C11_score_wraps_beyond_int :
    Device.rateDeviceSuitability ["VK_KHR_swapchain"]
        { physicalDevice :=
            { queueFamilies := [⟨7, 16⟩], presentSupport := fun _ => true,
              surfaceCapabilities := 0, surfaceFormats := [44], surfacePresentModes := [2],
              availableExtensions := ["VK_KHR_swapchain"],
              deviceType := 2, maxImageDimension2D := 4294967295, samplerAnisotropy := true },
          indices := { graphics := some 0, graphicsQueueCount := 16, present := some 0 },
          swapChainSupport := { capabilities := 0, formats := [44], presentModes := [2] } }
        = 999
      ∧ (999 : Int)
          ≠ (if (2 : Nat) = VK_PHYSICAL_DEVICE_TYPE_DISCRETE_GPU then 1000 else 0)
            + ((4294967295 : Nat) : Int) := by
  decide

/-! ## Device: selection -/

theorem mem_multimapInsert {α : Type} (entry x : Int × α) (m : List (Int × α)) :
    x ∈ multimapInsert entry m ↔ x = entry ∨ x ∈ m := by
  induction m with
  | nil => simp [multimapInsert]
  | cons first rest ih =>
    unfold multimapInsert
    split_ifs
    · simp
    · simp only [List.mem_cons, ih]
      tauto

theorem multimapInsert_sorted {α : Type} (entry : Int × α) (m : List (Int × α))
    (h : m.Pairwise (fun a b => a.1 ≤ b.1)) :
    (multimapInsert entry m).Pairwise (fun a b => a.1 ≤ b.1) := by
  induction m with
  | nil => simp [multimapInsert]
  | cons first rest ih =>
    obtain ⟨hfirst, hrest⟩ := List.pairwise_cons.mp h
    unfold multimapInsert
    split_ifs with hlt
    · refine List.pairwise_cons.mpr ⟨?_, h⟩
      intro b hb
      rcases List.mem_cons.mp hb with rfl | hb
      · omega
      · have := hfirst b hb
        omega
    · refine List.pairwise_cons.mpr ⟨?_, ih hrest⟩
      intro b hb
      rcases (mem_multimapInsert entry b rest).mp hb with rfl | hb
      · omega
      · exact hfirst b hb

/-- The multimap built by the loop of `pickPhysicalDevice` is ordered by score and holds
exactly the scored candidates of the enumerated devices (in addition to the initial
entries). -/
theorem foldl_multimapInsert_spec {α β : Type} (f : β → Int × α) (devices : List β) :
    ∀ candidates : List (Int × α), candidates.Pairwise (fun a b => a.1 ≤ b.1) →
      (devices.foldl (fun candidates device => multimapInsert (f device) candidates)
          candidates).Pairwise (fun a b => a.1 ≤ b.1)
        ∧ ∀ x, x ∈ devices.foldl (fun candidates device => multimapInsert (f device) candidates)
            candidates ↔ x ∈ candidates ∨ ∃ d ∈ devices, x = f d := by
  induction devices with
  | nil =>
    intro candidates h
    simp [h]
  | cons d rest ih =>
    intro candidates h
    obtain ⟨h1, h2⟩ := ih (multimapInsert (f d) candidates) (multimapInsert_sorted _ _ h)
    refine ⟨h1, ?_⟩
    intro x
    rw [List.foldl_cons, h2 x, mem_multimapInsert]
    simp only [List.mem_cons, exists_eq_or_imp]
    tauto

/-- The last entry of a list ordered by score has the greatest score. -/
theorem getLast?_sorted_max {α : Type} (m : List (Int × α))
    (h : m.Pairwise (fun a b => a.1 ≤ b.1)) (best : Int × α) (hbest : m.getLast? = some best) :
    best ∈ m ∧ ∀ x ∈ m, x.1 ≤ best.1 := by
  induction m with
  | nil => simp at hbest
  | cons first rest ih =>
    obtain ⟨hfirst, hrest⟩ := List.pairwise_cons.mp h
    cases rest with
    | nil =>
      simp at hbest
      subst hbest
      simp
    | cons second rest2 =>
      rw [List.getLast?_cons_cons] at hbest
      obtain ⟨hm, hmax⟩ := ih hrest hbest
      refine ⟨List.mem_cons_of_mem _ hm, ?_⟩
      intro x hx
      rcases List.mem_cons.mp hx with rfl | hx
      · exact hfirst best hm
      · exact hmax x hx

theorem getLast?_ne_none_of_mem {α : Type} (m : List α) (x : α) (h : x ∈ m) :
    ∃ best, m.getLast? = some best := by
  cases hl : m.getLast? with
  | none =>
    rw [List.getLast?_eq_none_iff] at hl
    subst hl
    simp at h
  | some best => exact ⟨best, rfl⟩

/-- For a non-empty enumeration, `candidates.rbegin()` exists and is the scored candidate of
an enumerated device whose score is the greatest. -/
theorem rateCandidates_last (deviceExtensions : List String) (devices : List VkPhysicalDevice)
    (hne : devices ≠ []) :
    ∃ best ∈ devices,
      (Device.rateCandidates deviceExtensions devices).getLast?
          = some (Device.rateDeviceSuitability deviceExtensions (Device.makeCandidate best),
              Device.makeCandidate best)
        ∧ ∀ d ∈ devices,
            Device.rateDeviceSuitability deviceExtensions (Device.makeCandidate d)
              ≤ Device.rateDeviceSuitability deviceExtensions (Device.makeCandidate best) := by
  obtain ⟨hsorted, hmem⟩ := foldl_multimapInsert_spec
    (fun device : VkPhysicalDevice =>
      (Device.rateDeviceSuitability deviceExtensions (Device.makeCandidate device),
        Device.makeCandidate device))
    devices [] List.Pairwise.nil
  obtain ⟨d0, hd0⟩ := List.exists_mem_of_ne_nil devices hne
  obtain ⟨last, hlast⟩ := getLast?_ne_none_of_mem _ _ ((hmem _).mpr (Or.inr ⟨d0, hd0, rfl⟩))
  obtain ⟨hin, hmax⟩ := getLast?_sorted_max _ hsorted last hlast
  rcases (hmem last).mp hin with hnil | ⟨best, hbest, heq⟩
  · simp at hnil
  · refine ⟨best, hbest, ?_, ?_⟩
    · unfold Device.rateCandidates
      rw [hlast, heq]
    · intro d hd
      have := hmax _ ((hmem _).mpr (Or.inr ⟨d, hd, rfl⟩))
      rw [heq] at this
      exact this

/-- C12: `pickPhysicalDevice` throws "failed to find GPUs with Vulkan support!" when no
device is enumerated and "failed to find a suitable GPU!" when devices are enumerated and
none has a positive score; it throws in no other case. When some score is positive it
returns normally, having selected an enumerated device whose score is positive and at least
the score of every enumerated device, and having stored that device together with its
queue-family layout and its swap-chain support. -/
theorem C12_pickPhysicalDevice_selects_best (deviceExtensions : List String)
    (devices : List VkPhysicalDevice) :
    (devices = [] →
        Device.pickPhysicalDevice deviceExtensions devices
          = Except.error "failed to find GPUs with Vulkan support!")
      ∧ (devices ≠ [] →
          (∀ d ∈ devices,
            Device.rateDeviceSuitability deviceExtensions (Device.makeCandidate d) ≤ 0) →
          Device.pickPhysicalDevice deviceExtensions devices
            = Except.error "failed to find a suitable GPU!")
      ∧ ((∃ d ∈ devices,
            0 < Device.rateDeviceSuitability deviceExtensions (Device.makeCandidate d)) →
          ∃ best ∈ devices,
            0 < Device.rateDeviceSuitability deviceExtensions (Device.makeCandidate best)
              ∧ (∀ d ∈ devices,
                  Device.rateDeviceSuitability deviceExtensions (Device.makeCandidate d)
                    ≤ Device.rateDeviceSuitability deviceExtensions (Device.makeCandidate best))
              ∧ Device.pickPhysicalDevice deviceExtensions devices
                  = Except.ok
                      { physical := best
                        queueFamilyIndices :=
                          Device.findQueueFamilies best.queueFamilies best.presentSupport
                        swapChainSupport := Device.querySwapChainSupport best })
      ∧ ((∃ message, Device.pickPhysicalDevice deviceExtensions devices = Except.error message)
          ↔ (devices = [] ∨ ∀ d ∈ devices,
              Device.rateDeviceSuitability deviceExtensions (Device.makeCandidate d) ≤ 0)) := by
  have h1 : devices = [] →
      Device.pickPhysicalDevice deviceExtensions devices
        = Except.error "failed to find GPUs with Vulkan support!" := by
    intro h
    subst h
    rfl
  have h2 : devices ≠ [] →
      (∀ d ∈ devices,
        Device.rateDeviceSuitability deviceExtensions (Device.makeCandidate d) ≤ 0) →
      Device.pickPhysicalDevice deviceExtensions devices
        = Except.error "failed to find a suitable GPU!" := by
    intro hne hall
    obtain ⟨best, hbest, hlast, -⟩ := rateCandidates_last deviceExtensions devices hne
    have hlen : ¬ devices.length = 0 := by
      intro h0
      exact hne (List.length_eq_zero.mp h0)
    unfold Device.pickPhysicalDevice
    rw [if_neg hlen, hlast]
    have := hall best hbest
    simp only
    rw [if_neg (by omega)]
  have h3 : (∃ d ∈ devices,
        0 < Device.rateDeviceSuitability deviceExtensions (Device.makeCandidate d)) →
      ∃ best ∈ devices,
        0 < Device.rateDeviceSuitability deviceExtensions (Device.makeCandidate best)
          ∧ (∀ d ∈ devices,
              Device.rateDeviceSuitability deviceExtensions (Device.makeCandidate d)
                ≤ Device.rateDeviceSuitability deviceExtensions (Device.makeCandidate best))
          ∧ Device.pickPhysicalDevice deviceExtensions devices
              = Except.ok
                  { physical := best
                    queueFamilyIndices :=
                      Device.findQueueFamilies best.queueFamilies best.presentSupport
                    swapChainSupport := Device.querySwapChainSupport best } := by
    rintro ⟨d, hd, hpos⟩
    have hne : devices ≠ [] := List.ne_nil_of_mem hd
    obtain ⟨best, hbest, hlast, hmax⟩ := rateCandidates_last deviceExtensions devices hne
    have hlen : ¬ devices.length = 0 := by
      intro h0
      exact hne (List.length_eq_zero.mp h0)
    have hbpos : 0 < Device.rateDeviceSuitability deviceExtensions (Device.makeCandidate best) :=
      lt_of_lt_of_le hpos (hmax d hd)
    refine ⟨best, hbest, hbpos, hmax, ?_⟩
    unfold Device.pickPhysicalDevice
    rw [if_neg hlen, hlast]
    simp only
    rw [if_pos hbpos]
    rfl
  refine ⟨h1, h2, h3, ?_⟩
  constructor
  · rintro ⟨message, hmsg⟩
    by_contra hcon
    rw [not_or] at hcon
    obtain ⟨-, hnotall⟩ := hcon
    have hex : ∃ d ∈ devices,
        0 < Device.rateDeviceSuitability deviceExtensions (Device.makeCandidate d) := by
      by_contra hno
      apply hnotall
      intro d hd
      by_contra hgt
      exact hno ⟨d, hd, by omega⟩
    obtain ⟨best, -, -, -, hok⟩ := h3 hex
    rw [hok] at hmsg
    cases hmsg
  · rintro (hnil | hall)
    · exact ⟨_, h1 hnil⟩
    · by_cases hne : devices = []
      · exact ⟨_, h1 hne⟩
      · exact ⟨_, h2 hne hall⟩

/-- Witness of C12: a single enumerated device none of whose queue families supports
presentation scores 0, and the selection throws "failed to find a suitable GPU!". -/
theorem C12_pickPhysicalDevice_selects_best_witness :
    Device.rateDeviceSuitability ["VK_KHR_swapchain"]
        (Device.makeCandidate
          { queueFamilies := [⟨7, 16⟩, ⟨6, 2⟩], presentSupport := fun _ => false,
            surfaceCapabilities := 0, surfaceFormats := [44], surfacePresentModes := [2],
            availableExtensions := ["VK_KHR_swapchain"],
            deviceType := 2, maxImageDimension2D := 16384, samplerAnisotropy := true }) = 0
      ∧ Device.pickPhysicalDevice ["VK_KHR_swapchain"]
          [{ queueFamilies := [⟨7, 16⟩, ⟨6, 2⟩], presentSupport := fun _ => false,
             surfaceCapabilities := 0, surfaceFormats := [44], surfacePresentModes := [2],
             availableExtensions := ["VK_KHR_swapchain"],
             deviceType := 2, maxImageDimension2D := 16384, samplerAnisotropy := true }]
          = Except.error "failed to find a suitable GPU!" :=
  ⟨by decide,
    (C12_pickPhysicalDevice_selects_best ["VK_KHR_swapchain"] _).2.1 (by simp)
      (by
        intro d hd
        rw [List.mem_singleton] at hd
        subst hd
        decide)⟩

/-! ## Device: command-buffer submission -/

/-- Whatever `vkQueueSubmit` and `vkQueueWaitIdle` report, a submission whose command buffer
was ended successfully returns normally. -/
theorem submitCommandBuffer_returns_normally (submitResult waitIdleResult : Int)
    (worker : Worker) (free : Bool) :
    (Device.submitCommandBuffer VK_SUCCESS submitResult waitIdleResult worker free).2
      = Except.ok () := rfl

/-- The lock discipline of `submitCommandBuffer`: with a lock, it is acquired once before the
queue submit and released once right after the wait-idle call; a failure of
`vkEndCommandBuffer` ends the function before the lock is acquired. -/
theorem submitCommandBuffer_lock_released (endResult submitResult waitIdleResult : Int)
    (queueIndex : Nat) (queueLock : Mutex) (free : Bool) :
    (endResult = VK_SUCCESS →
        (Device.submitCommandBuffer endResult submitResult waitIdleResult
            ⟨queueIndex, some queueLock⟩ free).1
          = [SubmitEvent.endCommandBuffer endResult, SubmitEvent.lock queueLock,
              SubmitEvent.queueSubmit submitResult, SubmitEvent.queueWaitIdle waitIdleResult,
              SubmitEvent.unlock queueLock]
            ++ (if free then [SubmitEvent.freeCommandBuffers] else []))
      ∧ (endResult ≠ VK_SUCCESS →
          Device.submitCommandBuffer endResult submitResult waitIdleResult
              ⟨queueIndex, some queueLock⟩ free
            = ([SubmitEvent.endCommandBuffer endResult], Except.error endResult)) := by
  constructor
  · intro h
    subst h
    cases free <;> rfl
  · intro h
    simp [Device.submitCommandBuffer, VK_CHECK_RESULT, h]

/-- C13, evaluated on the code: `vkQueueSubmit` and `vkQueueWaitIdle` both report
`VK_ERROR_DEVICE_LOST`, and `submitCommandBuffer` still returns normally; the lock of the
worker is acquired before the submit and released once after the wait-idle call. -/
theorem C13_submit_failure_not_propagated :
    Device.submitCommandBuffer VK_SUCCESS VK_ERROR_DEVICE_LOST VK_ERROR_DEVICE_LOST
        ⟨1, some ⟨0⟩⟩ false
      = ([SubmitEvent.endCommandBuffer 0, SubmitEvent.lock ⟨0⟩, SubmitEvent.queueSubmit (-4),
            SubmitEvent.queueWaitIdle (-4), SubmitEvent.unlock ⟨0⟩],
          Except.ok ()) := rfl

/-! ## Queue indices stay within the queues the logical device creates -/

/-- Without wrap-around (`hardwareConcurrency + 2 <= 2^31`, `graphicsQueueCount >= 1` a
`uint32_t`), `createLogicalDevice` requests `min(max(1, h - 1) + 3, graphicsQueueCount)`
graphics queues. -/
theorem graphicsQueuesRequested_eq (h availableQueues : Nat) (h1 : 1 ≤ h)
    (hsmall : h + 2 ≤ 2147483648) (hA : 1 ≤ availableQueues)
    (hA32 : availableQueues < 4294967296) :
    Device.graphicsQueuesRequested h availableQueues = min (max 1 (h - 1) + 3) availableQueues := by
  simp only [Device.graphicsQueuesRequested, toUint32, toInt32, subUint32, UINT32_SIZE]
  have e1 : (h % 4294967296 + 4294967296 - 1 % 4294967296) % 4294967296 = h - 1 := by omega
  rw [e1]
  have e2 : (max 1 (h - 1) + 3) % 4294967296 = max 1 (h - 1) + 3 := by omega
  rw [e2]
  have e3 : (min (max 1 (h - 1) + 3) availableQueues % 4294967296 + 4294967296
      - 1 % 4294967296) % 4294967296 = min (max 1 (h - 1) + 3) availableQueues - 1 := by omega
  rw [e3]
  have e4 : (min (max 1 (h - 1) + 3) availableQueues - 1) % 4294967296
      = min (max 1 (h - 1) + 3) availableQueues - 1 := by omega
  rw [e4]
  split_ifs with hlt <;> omega

theorem subUint32_one (m : Nat) (h1 : 1 ≤ m) (h32 : m < 4294967296) : subUint32 m 1 = m - 1 := by
  unfold subUint32 UINT32_SIZE
  omega

theorem toInt32_of_lt (n : Nat) (h : n < 2147483648) : toInt32 n = (n : Int) := by
  unfold toInt32 UINT32_SIZE
  have e : n % 4294967296 = n := Nat.mod_eq_of_lt (by omega)
  rw [e, if_pos h]

theorem toInt32_of_ge (n : Nat) (h : 2147483648 ≤ n) (h32 : n < 4294967296) :
    toInt32 n = (n : Int) - 4294967296 := by
  unfold toInt32 UINT32_SIZE
  have e : n % 4294967296 = n := Nat.mod_eq_of_lt h32
  rw [e, if_neg (by omega)]

/-- The number of iterations of the loop at lines 385-386 when `min(desiredQueues,
graphicsQueueCount)` is `m`: `m` itself when `1 <= m <= 2^31`, and none when `m` is 0 or
`m - 1` is negative as an `int`. -/
theorem loopCount_of_min (m : Nat) (h32 : m < 4294967296) :
    (toInt32 (subUint32 m 1) + 1).toNat = if 1 ≤ m ∧ m ≤ 2147483648 then m else 0 := by
  by_cases h0 : m = 0
  · subst h0
    decide
  · rw [subUint32_one m (by omega) h32]
    by_cases hlt : m - 1 < 2147483648
    · rw [toInt32_of_lt _ hlt, if_pos (by omega)]
      omega
    · rw [toInt32_of_ge _ (by omega) (by omega), if_neg (by omega)]
      omega

theorem graphicsQueuesRequested_unfold (h availableQueues : Nat) (h1 : 1 ≤ h)
    (h32 : h < 4294967296) :
    Device.graphicsQueuesRequested h availableQueues
      = (toInt32 (subUint32 (min ((max 1 (h - 1) + 3) % 4294967296) availableQueues) 1)
          + 1).toNat := by
  unfold Device.graphicsQueuesRequested
  rw [subUint32_one h h1 h32]
  rfl

/-- The queue count `createLogicalDevice` requests, in closed form. -/
theorem graphicsQueuesRequested_closed (h availableQueues : Nat) (h1 : 1 ≤ h)
    (h32 : h < 4294967296) (hA : 1 ≤ availableQueues) (hA32 : availableQueues < 4294967296) :
    Device.graphicsQueuesRequested h availableQueues
      = if max 1 (h - 1) + 3 < 4294967296 then
          (if min (max 1 (h - 1) + 3) availableQueues ≤ 2147483648
            then min (max 1 (h - 1) + 3) availableQueues else 0)
        else if h = 4294967295 then 1 else 0 := by
  rw [graphicsQueuesRequested_unfold h availableQueues h1 h32]
  by_cases hD : max 1 (h - 1) + 3 < 4294967296
  · rw [Nat.mod_eq_of_lt hD, loopCount_of_min _ (by omega), if_pos hD]
    by_cases hm : min (max 1 (h - 1) + 3) availableQueues ≤ 2147483648
    · rw [if_pos ⟨by omega, hm⟩, if_pos hm]
    · rw [if_neg (fun hc => hm hc.2), if_neg hm]
  · rw [if_neg hD]
    by_cases hlast : h = 4294967295
    · subst hlast
      rw [if_pos rfl]
      have e : (max 1 (4294967295 - 1) + 3) % 4294967296 = 1 := by decide
      rw [e, loopCount_of_min _ (by omega), if_pos (by omega)]
      omega
    · have hh : h = 4294967294 := by omega
      subst hh
      rw [if_neg (by decide)]
      have e : (max 1 (4294967294 - 1) + 3) % 4294967296 = 0 := by decide
      rw [e, loopCount_of_min _ (by omega), if_neg (by omega)]

theorem graphicsQueuesRequested_le (h availableQueues : Nat) (h1 : 1 ≤ h)
    (h32 : h < 4294967296) (hA : 1 ≤ availableQueues) (hA32 : availableQueues < 4294967296) :
    Device.graphicsQueuesRequested h availableQueues
      ≤ min (max 1 (h - 1) + 3) availableQueues := by
  rw [graphicsQueuesRequested_closed h availableQueues h1 h32 hA hA32]
  split_ifs <;> omega

theorem graphicsQueuesRequested_eq_iff (h availableQueues : Nat) (h1 : 1 ≤ h)
    (h32 : h < 4294967296) (hA : 1 ≤ availableQueues) (hA32 : availableQueues < 4294967296) :
    Device.graphicsQueuesRequested h availableQueues = min (max 1 (h - 1) + 3) availableQueues
      ↔ ((max 1 (h - 1) + 3 < 4294967296
            ∧ min (max 1 (h - 1) + 3) availableQueues ≤ 2147483648)
          ∨ (h = 4294967295 ∧ availableQueues = 1)) := by
  rw [graphicsQueuesRequested_closed h availableQueues h1 h32 hA hA32]
  split_ifs <;> omega

/-- The bound `min(desiredQueues, availableQueues)` on the queue indices is attained: a
number that exceeds the index of every ordinal below `desiredQueues` is at least that
bound. -/
theorem getQueueIndex_bound_tight (availableQueues workerCount N : Nat)
    (hA : 1 ≤ availableQueues)
    (hall : ∀ x, x < workerCount + 3 → ∃ q,
      (JobManager.initQueues availableQueues workerCount).getQueueIndex x = some q ∧ q < N) :
    min (workerCount + 3) availableQueues ≤ N := by
  have hov := initQueues_overlap availableQueues workerCount
  have hgqc := initQueues_graphicsQueueCount availableQueues workerCount
  by_cases c0 : (JobManager.initQueues availableQueues workerCount).overlap = 0
  · obtain ⟨q, hq, hlt⟩ := hall (workerCount + 2) (by omega)
    unfold JobManager.getQueueIndex at hq
    rw [if_pos c0] at hq
    have := Option.some.inj hq
    omega
  · by_cases c1 : (JobManager.initQueues availableQueues workerCount).overlap < availableQueues
    · obtain ⟨q, hq, hlt⟩ := hall (availableQueues - 2) (by omega)
      unfold JobManager.getQueueIndex at hq
      rw [if_neg c0, hgqc, if_pos c1, if_neg (by omega),
        Nat.mod_eq_of_lt (by omega)] at hq
      have := Option.some.inj hq
      omega
    · obtain ⟨q, hq, hlt⟩ := hall (availableQueues - 1) (by omega)
      unfold JobManager.getQueueIndex at hq
      rw [if_neg c0, hgqc, if_neg c1, if_neg (by omega),
        Nat.mod_eq_of_lt (by omega)] at hq
      have := Option.some.inj hq
      omega

/-- C14 as stated fails where `createLogicalDevice` wraps: at a hardware concurrency of
4294967295 and 16 graphics queues, ordinal 5 is below `desiredQueues = 4294967297` and gets
queue index 5, below `min(desiredQueues, availableQueues) = 16`, but line 384 computes
`desiredQueues` as the `uint32_t` value 1, so `createLogicalDevice` requests a single
graphics queue. -/
theorem C14_created_queue_count_wraps :
    numThreads 4294967295 = 4294967294
      ∧ (5 : Nat) < max 1 (4294967295 - 1) + 3
      ∧ (JobManager.initQueues 16 (numThreads 4294967295)).getQueueIndex 5 = some 5
      ∧ (5 : Nat) < min (max 1 (4294967295 - 1) + 3) 16
      ∧ Device.graphicsQueuesRequested 4294967295 16 = 1
      ∧ ¬ (5 : Nat) < Device.graphicsQueuesRequested 4294967295 16 := by
  decide

/-- C14, amended: for a hardware concurrency `h >= 1` (an `unsigned int`) and
`availableQueues >= 1`, `init` creates `max(1, h - 1)` workers and returns; on the overlap it
computes, `getQueueIndex` never divides by zero (it returns an index for every argument, and
the regime that uses the modulus `availableQueues - 1` only occurs when
`availableQueues >= 2`); every ordinal below `desiredQueues = max(1, h - 1) + 3` gets an index
below `min(desiredQueues, availableQueues)`, and so does every worker. For a `uint32_t`
`availableQueues`, that bound is the number of graphics queues `createLogicalDevice` requests
exactly when `desiredQueues < 2^32` and the bound is at most `2^31` (or `h = 4294967295` and
`availableQueues = 1`), and exactly then every such index is below the requested count. -/
theorem C14_queue_index_within_created_queues (h availableQueues : Nat)
    (h1 : 1 ≤ h) (h32 : h < 4294967296) (hA : 1 ≤ availableQueues) :
    numThreads h = max 1 (h - 1)
      ∧ (∃ jm, JobManager.init h availableQueues = some jm
          ∧ jm.overlap = (JobManager.initQueues availableQueues (numThreads h)).overlap
          ∧ jm.graphicsQueueCount = availableQueues
          ∧ jm.workerThreads.length = max 1 (h - 1)
          ∧ ∀ x, jm.getQueueIndex x
              = (JobManager.initQueues availableQueues (numThreads h)).getQueueIndex x)
      ∧ (∀ x, ∃ q,
          (JobManager.initQueues availableQueues (numThreads h)).getQueueIndex x = some q)
      ∧ (0 < (JobManager.initQueues availableQueues (numThreads h)).overlap →
          (JobManager.initQueues availableQueues (numThreads h)).overlap < availableQueues →
          2 ≤ availableQueues)
      ∧ (∀ x, x < max 1 (h - 1) + 3 → ∃ q,
          (JobManager.initQueues availableQueues (numThreads h)).getQueueIndex x = some q
            ∧ q < min (max 1 (h - 1) + 3) availableQueues)
      ∧ (∀ i, i < max 1 (h - 1) → ∃ worker,
          (JobManager.initQueues availableQueues (numThreads h)).bindWorker i = some worker
            ∧ worker.queueIndex < min (max 1 (h - 1) + 3) availableQueues)
      ∧ (availableQueues < 4294967296 →
          (Device.graphicsQueuesRequested h availableQueues
              = min (max 1 (h - 1) + 3) availableQueues
            ↔ ((max 1 (h - 1) + 3 < 4294967296
                  ∧ min (max 1 (h - 1) + 3) availableQueues ≤ 2147483648)
                ∨ (h = 4294967295 ∧ availableQueues = 1)))
          ∧ ((∀ x, x < max 1 (h - 1) + 3 → ∃ q,
                (JobManager.initQueues availableQueues (numThreads h)).getQueueIndex x = some q
                  ∧ q < Device.graphicsQueuesRequested h availableQueues)
            ↔ ((max 1 (h - 1) + 3 < 4294967296
                  ∧ min (max 1 (h - 1) + 3) availableQueues ≤ 2147483648)
                ∨ (h = 4294967295 ∧ availableQueues = 1)))) := by
  have hn : numThreads h = max 1 (h - 1) := (numThreads_of_pos h h1 h32).1
  have hiff := fun (hA32 : availableQueues < 4294967296) =>
    graphicsQueuesRequested_eq_iff h availableQueues h1 h32 hA hA32
  have hle := fun (hA32 : availableQueues < 4294967296) =>
    graphicsQueuesRequested_le h availableQueues h1 h32 hA hA32
  unfold JobManager.init
  generalize numThreads h = W at hn ⊢
  generalize Device.graphicsQueuesRequested h availableQueues = N at hiff hle ⊢
  have hov := initQueues_overlap availableQueues W
  have hgqc := initQueues_graphicsQueueCount availableQueues W
  have hbound : ∀ x, x < max 1 (h - 1) + 3 → ∃ q,
      (JobManager.initQueues availableQueues W).getQueueIndex x = some q
        ∧ q < min (max 1 (h - 1) + 3) availableQueues := by
    intro x hx
    unfold JobManager.getQueueIndex
    rw [hgqc]
    split_ifs with c0 c1 c2 c3
    · exact ⟨x, rfl, by omega⟩
    · omega
    · refine ⟨_, rfl, ?_⟩
      have := Nat.mod_lt x (show availableQueues - 1 > 0 by omega)
      omega
    · omega
    · refine ⟨_, rfl, ?_⟩
      have := Nat.mod_lt x (show availableQueues > 0 by omega)
      omega
  refine ⟨hn, ?_, ?_, ?_, hbound, ?_, ?_⟩
  · obtain ⟨workers, hinit, hlen⟩ := initWorkers_total availableQueues W hA
    refine ⟨{ JobManager.initQueues availableQueues W with workerThreads := workers },
      hinit, rfl, rfl, ?_, fun _ => rfl⟩
    show workers.length = _
    rw [hlen, hn]
  · intro x
    exact getQueueIndex_isSome _ (by rw [hgqc]; exact hA) x
  · intro hpos hlt
    omega
  · intro i hi
    have hlt : toUint32 (i + 3) < max 1 (h - 1) + 3 := by
      unfold toUint32 UINT32_SIZE
      have := Nat.mod_le (i + 3) 4294967296
      omega
    obtain ⟨q, hq, hqlt⟩ := hbound _ hlt
    refine ⟨⟨q, (JobManager.initQueues availableQueues W).getQueueLock q⟩, ?_, hqlt⟩
    simp only [JobManager.bindWorker, hq]
  · intro hA32
    refine ⟨hiff hA32, ?_⟩
    constructor
    · intro hall
      have htight : min (W + 3) availableQueues ≤ N :=
        getQueueIndex_bound_tight availableQueues W N hA
          (fun x hx => hall x (by omega))
      have hNle := hle hA32
      exact (hiff hA32).mp (by omega)
    · intro hcond x hx
      have hN := (hiff hA32).mpr hcond
      obtain ⟨q, hq, hqlt⟩ := hbound x hx
      exact ⟨q, hq, by omega⟩

/-- Witness of the amended C14 at a hardware concurrency of 8 and 4 graphics queues
(7 workers, `desiredQueues = 10`, four queues created). -/
theorem C14_queue_index_within_created_queues_witness :
    ((1 : Nat) ≤ 8 ∧ (8 : Nat) < 4294967296 ∧ (1 : Nat) ≤ 4)
    ∧ (numThreads 8 = max 1 (8 - 1)
      ∧ (∃ jm, JobManager.init 8 4 = some jm
          ∧ jm.overlap = (JobManager.initQueues 4 (numThreads 8)).overlap
          ∧ jm.graphicsQueueCount = 4
          ∧ jm.workerThreads.length = max 1 (8 - 1)
          ∧ ∀ x, jm.getQueueIndex x = (JobManager.initQueues 4 (numThreads 8)).getQueueIndex x)
      ∧ (∀ x, ∃ q, (JobManager.initQueues 4 (numThreads 8)).getQueueIndex x = some q)
      ∧ (0 < (JobManager.initQueues 4 (numThreads 8)).overlap →
          (JobManager.initQueues 4 (numThreads 8)).overlap < 4 → 2 ≤ 4)
      ∧ (∀ x, x < max 1 (8 - 1) + 3 → ∃ q,
          (JobManager.initQueues 4 (numThreads 8)).getQueueIndex x = some q
            ∧ q < min (max 1 (8 - 1) + 3) 4)
      ∧ (∀ i, i < max 1 (8 - 1) → ∃ worker,
          (JobManager.initQueues 4 (numThreads 8)).bindWorker i = some worker
            ∧ worker.queueIndex < min (max 1 (8 - 1) + 3) 4)
      ∧ (4 < 4294967296 →
          (Device.graphicsQueuesRequested 8 4 = min (max 1 (8 - 1) + 3) 4
            ↔ ((max 1 (8 - 1) + 3 < 4294967296 ∧ min (max 1 (8 - 1) + 3) 4 ≤ 2147483648)
                ∨ (8 = 4294967295 ∧ 4 = 1)))
          ∧ ((∀ x, x < max 1 (8 - 1) + 3 → ∃ q,
                (JobManager.initQueues 4 (numThreads 8)).getQueueIndex x = some q
                  ∧ q < Device.graphicsQueuesRequested 8 4)
            ↔ ((max 1 (8 - 1) + 3 < 4294967296 ∧ min (max 1 (8 - 1) + 3) 4 ≤ 2147483648)
                ∨ (8 = 4294967295 ∧ 4 = 1))))) :=
  ⟨by decide, C14_queue_index_within_created_queues 8 4 (by decide) (by decide) (by decide)⟩

end vecs
